import Mathlib

/-!
Verification of the PHP serialize/unserialize editor (`pse.php_serialize_edit`).

The Python module is shallowly embedded: byte strings become `List Nat`
(one entry per byte, values 0..255), the `Parser` class's mutable position
becomes an explicit `cur : Nat` argument threaded through the functions,
Python exceptions become the `PErr` error type of an `Except` monad, and the
value universe handled by the module (None / bool / int / float / bytes /
list-of-pairs / `(bytes, list)` object tuples) becomes the `Value` inductive.

Modelling notes, recorded once here:
* Python `int(b)` is modelled by `pyInt`: surrounding ASCII whitespace,
  an optional sign and single underscores between digits are accepted,
  anything else is rejected (`none`), matching CPython.
* Python floats are modelled as exact decimal numbers: `Value.float m e`
  stands for the value `m / 10 ^ e`.  Python `float(b)` restricted to the
  plain `[sign] digits [. digits]` forms is modelled by `pyFloatTok`;
  exponent, `inf`/`nan` and underscore spellings accepted by CPython are out
  of scope (the spec explicitly scopes NaN/Inf out), and `str(float)`'s
  shortest-round-trip rendering is modelled by the exact decimal rendering
  `renderFloat`, which preserves the parse-render round-trip the code
  relies on.
* Error message strings are elided: `PErr.parseError` keeps the byte
  position (the datum the spec cares about), `PErr.valueError` stands for
  an uncaught Python `ValueError` (which carries no position), and
  `PErr.outOfFuel` is an artifact of bounding recursion depth with fuel;
  all theorems supply enough fuel for it never to occur.
-/

/-- Byte is an ASCII decimal digit (48 = `0` .. 57 = `9`). -/
def isDigitB (c : Nat) : Bool := 48 ≤ c && c ≤ 57

/-- Byte is ASCII whitespace as stripped by Python `int()` / `float()`. -/
def isWSb (c : Nat) : Bool := c = 32 || c = 9 || c = 10 || c = 13 || c = 11 || c = 12

/-- Strip leading and trailing whitespace, as Python number conversion does. -/
def trimWS (s : List Nat) : List Nat :=
  ((s.dropWhile isWSb).reverse.dropWhile isWSb).reverse

/-- Numeric value of a list of ASCII digit bytes, most significant first. -/
def digitsVal (l : List Nat) : Nat := l.foldl (fun a c => a * 10 + (c - 48)) 0

/-- Tail of Python's digit grammar: digits with single underscores (byte 95)
allowed only between digits, as accepted by `int()`. -/
def digitsTail : List Nat → Option (List Nat)
  | [] => some []
  | c :: rest =>
      if c = 95 then
        match rest with
        | c2 :: rest2 =>
            if isDigitB c2 then (digitsTail rest2).map (fun ds => c2 :: ds) else none
        | [] => none
      else if isDigitB c then (digitsTail rest).map (fun ds => c :: ds) else none

/-- Nonempty digit run (with Python's underscore rule), and its value. -/
def pyIntDigits (s : List Nat) : Option Nat :=
  match s with
  | [] => none
  | c :: rest =>
      if isDigitB c then (digitsTail rest).map (fun ds => digitsVal (c :: ds)) else none

/-- Sign handling of Python `int()` after whitespace stripping. -/
def pyIntSigned (t : List Nat) : Option Int :=
  match t with
  | [] => (pyIntDigits []).map (fun n => (n : Int))
  | c :: r =>
      if c = 45 then (pyIntDigits r).map (fun n => -(n : Int))
      else if c = 43 then (pyIntDigits r).map (fun n => (n : Int))
      else (pyIntDigits (c :: r)).map (fun n => (n : Int))

/-- Python `int(b)` on a byte string: `some` of the value, or `none` when
CPython would raise `ValueError`. -/
def pyInt (s : List Nat) : Option Int := pyIntSigned (trimWS s)

/-- Apply an optional minus sign to a natural number. -/
def signApply (neg : Bool) (n : Nat) : Int := if neg then -(n : Int) else (n : Int)

/-- Digit grammar of Python `float(b)` after sign handling: `digits`,
`digits . digits`, `. digits` or `digits .` (at least one digit overall),
returned as an exact decimal `(m, e)` with value `m / 10 ^ e`; `none` when
CPython would raise `ValueError`. -/
def pyFloatCore (neg : Bool) (t1 : List Nat) : Option (Int × Nat) :=
  let ip := t1.takeWhile isDigitB
  let r1 := t1.dropWhile isDigitB
  match r1 with
  | [] => if ip.isEmpty then none else some (signApply neg (digitsVal ip), 0)
  | c :: r2 =>
      if c = 46 then
        let fp := r2.takeWhile isDigitB
        if (r2.dropWhile isDigitB).isEmpty then
          if ip.isEmpty && fp.isEmpty then none
          else some (signApply neg (digitsVal (ip ++ fp)), fp.length)
        else none
      else none

/-- Python `float(b)` on the plain decimal forms, split on the optional
sign after whitespace stripping (see `pyFloatCore` for the digit grammar). -/
def pyFloatTok (s : List Nat) : Option (Int × Nat) :=
  match trimWS s with
  | [] => pyFloatCore false []
  | c :: r =>
      if c = 45 then pyFloatCore true r
      else if c = 43 then pyFloatCore false r
      else pyFloatCore false (c :: r)

/-- Decimal digits of a natural number, via fuel-bounded division by ten
(fuel `n + 1` always suffices). -/
def natDigitsAux : Nat → Nat → List Nat → List Nat
  | 0, _, acc => acc
  | f + 1, n, acc =>
      if n < 10 then (48 + n) :: acc
      else natDigitsAux f (n / 10) ((48 + n % 10) :: acc)

/-- Decimal digit bytes of a natural number, most significant first. -/
def natDigits (n : Nat) : List Nat := natDigitsAux (n + 1) n []

/-- Python `str` of an integer, as bytes (minus sign 45 when negative). -/
def intDigits (z : Int) : List Nat :=
  if z < 0 then 45 :: natDigits z.natAbs else natDigits z.natAbs

/-- Left-pad a digit list with zeros (byte 48) to width `e`. -/
def padZeros (e : Nat) (l : List Nat) : List Nat :=
  List.replicate (e - l.length) 48 ++ l

/-- Decimal rendering of the float `m / 10 ^ e` (integer part, dot, exactly
`e` fraction digits); models Python `str` on the floats this module handles. -/
def renderFloat (m : Int) (e : Nat) : List Nat :=
  (if m < 0 then [45] else []) ++ natDigits (m.natAbs / 10 ^ e) ++
    (if e = 0 then [] else 46 :: padZeros e (natDigits (m.natAbs % 10 ^ e)))

/-- Effective end index of the Python slice `data[a:b]` for `b` possibly
negative (negative indices count from the end, as in Python). -/
def pySliceEnd (len : Nat) (b : Int) : Nat :=
  if b < 0 then ((len : Int) + b).toNat else min b.toNat len

/-- The Python slice `data[a:b]` with a nonnegative start. -/
def pySlice (data : List Nat) (a : Nat) (b : Int) : List Nat :=
  (data.take (pySliceEnd data.length b)).drop a

/-- `Parser.chunk`: `self.data[self.current:self.current+length]`, without
advancing.  The length is an `Int` because decoded size fields can be
negative, in which case Python slicing wraps around. -/
def chunk (data : List Nat) (cur : Nat) (len : Int) : List Nat :=
  pySlice data cur ((cur : Int) + len)

/-- Offset of the first occurrence of `stop` in `s` (as `bytes.find` /
`bytes.split` locate it), `none` when absent. -/
def findMarker (stop : List Nat) : List Nat → Option Nat
  | [] => if stop.isPrefixOf [] then some 0 else none
  | a :: t =>
      if stop.isPrefixOf (a :: t) then some 0
      else (findMarker stop t).map (fun i => i + 1)

/-- Errors of the embedded module: a Python `ParseError` carrying its byte
position, an uncaught Python `ValueError` (no position), or fuel exhaustion
(an artifact of the embedding, never reached with adequate fuel). -/
inductive PErr where
  | parseError (pos : Nat) : PErr
  | valueError : PErr
  | outOfFuel : PErr
deriving DecidableEq

/-- `Parser.read_until`: bytes strictly before the next occurrence of `stop`
in `data[cur:]`, and the position advanced past the returned span (not past
the marker).  `none` models the `ValueError` raised by
`self.data[self.current:].split(stop, 1)` unpacking when the marker is
absent, and the one Python raises for an empty separator. -/
def read_until (data : List Nat) (cur : Nat) (stop : List Nat) :
    Option (List Nat × Nat) :=
  if stop = [] then none
  else
    match findMarker stop (data.drop cur) with
    | none => none
    | some i => some ((data.drop cur).take i, cur + i)

/-- `Parser.read_bytes`: take `chunk` of the given length and advance by the
length actually obtained. -/
def read_bytes (data : List Nat) (cur : Nat) (len : Int) : List Nat × Nat :=
  let start := chunk data cur len
  (start, cur + start.length)

/-- `Parser.read_must`: consume exactly `expected` or fail with a
`ParseError` at the current position (messages elided). -/
def read_must (data : List Nat) (cur : Nat) (expected : List Nat) :
    Except PErr Nat :=
  if (expected.length : Int) > (data.length : Int) - (cur : Int) then
    .error (.parseError cur)
  else if chunk data cur (expected.length : Int) ≠ expected then
    .error (.parseError cur)
  else .ok (cur + expected.length)

mutual
/-- The value universe the module manipulates: decoded PHP values and query
literals.  `float m e` stands for the exact decimal `m / 10 ^ e`; `arr` is a
Python list of key/value pairs, `obj` the `(class_name, properties)` tuple
recognised by `is_object`. -/
inductive Value where
  | null : Value
  | bool (b : Bool) : Value
  | int (n : Int) : Value
  | float (num : Int) (den : Nat) : Value
  | bytes (s : List Nat) : Value
  | arr (items : Pairs) : Value
  | obj (name : List Nat) (props : Pairs) : Value
deriving DecidableEq
/-- Ordered key/value pair sequences (Python lists of 2-tuples). -/
inductive Pairs where
  | nil : Pairs
  | cons (key val : Value) (rest : Pairs) : Pairs
deriving DecidableEq
end

/-- Number of pairs (Python `len` of the pair list). -/
def pairsLen : Pairs → Nat
  | .nil => 0
  | .cons _ _ tl => pairsLen tl + 1

/-- Concatenation of pair sequences. -/
def pairsAppend : Pairs → Pairs → Pairs
  | .nil, q => q
  | .cons k v tl, q => .cons k v (pairsAppend tl q)

/-- Pair sequence as a Lean list, for stating order/filter properties. -/
def pairsToList : Pairs → List (Value × Value)
  | .nil => []
  | .cons k v tl => (k, v) :: pairsToList tl

/-- Numeric view used by Python `==`: bools count as 0/1, ints and floats by
exact value, all returned as an exact decimal `(m, e)` meaning `m / 10 ^ e`. -/
def asDec : Value → Option (Int × Nat)
  | .bool b => some (if b then (1, 0) else (0, 0))
  | .int n => some (n, 0)
  | .float m e => some (m, e)
  | _ => none

mutual
/-- Python `==` on the value universe: numeric variants compare by exact
numeric value across types (so `1 == True` and `1 == 1.0`), byte strings
bytewise, lists and object tuples componentwise, and values of unrelated
shapes are unequal. -/
def pyEq : Value → Value → Bool
  | .arr l1, .arr l2 => pyEqP l1 l2
  | .obj n1 p1, .obj n2 p2 => n1 == n2 && pyEqP p1 p2
  | .bytes s1, .bytes s2 => s1 == s2
  | .null, .null => true
  | a, b =>
      match asDec a, asDec b with
      | some (m1, e1), some (m2, e2) => m1 * 10 ^ e2 == m2 * 10 ^ e1
      | _, _ => false
/-- Python `==` on pair lists, componentwise and in order. -/
def pyEqP : Pairs → Pairs → Bool
  | .nil, .nil => true
  | .cons k1 v1 t1, .cons k2 v2 t2 => pyEq k1 k2 && pyEq v1 v2 && pyEqP t1 t2
  | _, _ => false
end

mutual
/-- `PHPSerializer.to_bytes`: encode a value in PHP wire format.  `none`
models the `SerializeError` raised by the final fall-through branch; note
there is no branch for `None`, so `null` encodes to `none`. -/
def to_bytes : Value → Option (List Nat)
  | .bytes s =>
      some ([115, 58] ++ natDigits s.length ++ [58, 34] ++ s ++ [34, 59])
  | .bool b => some [98, 58, if b then 49 else 48, 59]
  | .int n => some ([105, 58] ++ intDigits n ++ [59])
  | .float m e => some ([100, 58] ++ renderFloat m e ++ [59])
  | .arr items =>
      (serPairs items).map (fun body =>
        [97, 58] ++ natDigits (pairsLen items) ++ [58, 123] ++ body ++ [125])
  | .obj name props =>
      (serPairs props).map (fun body =>
        [79, 58] ++ natDigits name.length ++ [58, 34] ++ name ++ [34, 58] ++
          natDigits (pairsLen props) ++ [58, 123] ++ body ++ [125])
  | .null => none
/-- Encodings of a pair list, each key immediately followed by its value. -/
def serPairs : Pairs → Option (List Nat)
  | .nil => some []
  | .cons k v tl => do
      let kb ← to_bytes k
      let vb ← to_bytes v
      let tb ← serPairs tl
      some (kb ++ vb ++ tb)
end

/-- `php_serialize`. -/
def php_serialize (v : Value) : Option (List Nat) := to_bytes v

/-- Lift `read_until` into the error monad (`ValueError` when it fails). -/
def ruE (data : List Nat) (cur : Nat) (stop : List Nat) :
    Except PErr (List Nat × Nat) :=
  match read_until data cur stop with
  | some r => .ok r
  | none => .error .valueError

/-- Lift `pyInt` into the error monad (`ValueError` when it fails). -/
def pyIntE (s : List Nat) : Except PErr Int :=
  match pyInt s with
  | some z => .ok z
  | none => .error .valueError

/-- Lift `pyFloatTok` into the error monad (`ValueError` when it fails). -/
def pyFloatE (s : List Nat) : Except PErr (Int × Nat) :=
  match pyFloatTok s with
  | some r => .ok r
  | none => .error .valueError

/-- `PHPUnserializer._string_from_bytes`. -/
def string_from_bytes (data : List Nat) (cur : Nat) : Except PErr (Value × Nat) := do
  let c1 ← read_must data cur [115]
  let c2 ← read_must data c1 [58]
  let (szb, c3) ← ruE data c2 [58]
  let sz ← pyIntE szb
  let c4 ← read_must data c3 [58]
  let c5 ← read_must data c4 [34]
  let (value, c6) := read_bytes data c5 sz
  let c7 ← read_must data c6 [34]
  let c8 ← read_must data c7 [59]
  .ok (.bytes value, c8)

/-- `PHPUnserializer._int_from_bytes`. -/
def int_from_bytes (data : List Nat) (cur : Nat) : Except PErr (Value × Nat) := do
  let c1 ← read_must data cur [105]
  let c2 ← read_must data c1 [58]
  let (vb, c3) ← ruE data c2 [59]
  let z ← pyIntE vb
  let c4 ← read_must data c3 [59]
  .ok (.int z, c4)

/-- `PHPUnserializer._decimal_from_bytes`. -/
def decimal_from_bytes (data : List Nat) (cur : Nat) : Except PErr (Value × Nat) := do
  let c1 ← read_must data cur [100]
  let c2 ← read_must data c1 [58]
  let (vb, c3) ← ruE data c2 [59]
  let me ← pyFloatE vb
  let c4 ← read_must data c3 [59]
  .ok (.float me.1 me.2, c4)

/-- `PHPUnserializer._bool_from_bytes` (`bool(int(...))`). -/
def bool_from_bytes (data : List Nat) (cur : Nat) : Except PErr (Value × Nat) := do
  let c1 ← read_must data cur [98]
  let c2 ← read_must data c1 [58]
  let (vb, c3) ← ruE data c2 [59]
  let z ← pyIntE vb
  let c4 ← read_must data c3 [59]
  .ok (.bool (decide (z ≠ 0)), c4)

/-- `PHPUnserializer._null_from_bytes` (returns Python `None`). -/
def null_from_bytes (data : List Nat) (cur : Nat) : Except PErr (Value × Nat) := do
  let c1 ← read_must data cur [78]
  let c2 ← read_must data c1 [59]
  .ok (.null, c2)

/-- Decode `n` key/value pairs in sequence with the supplied element
decoder (the list comprehension over `range(size)`). -/
def decodeN (dec : Nat → Except PErr (Value × Nat)) : Nat → Nat → Except PErr (Pairs × Nat)
  | 0, cur => .ok (.nil, cur)
  | n + 1, cur => do
      let (k, c1) ← dec cur
      let (v, c2) ← dec c1
      let (tl, c3) ← decodeN dec n c2
      .ok (.cons k v tl, c3)

/-- `PHPUnserializer.from_bytes`: dispatch on the tag byte and decode one
value.  The array and object cases are inlined so that the recursion is
structural on the fuel; unknown tags fail with a `ParseError` at the
current position. -/
def from_bytes : Nat → List Nat → Nat → Except PErr (Value × Nat)
  | 0, _, _ => .error .outOfFuel
  | f + 1, data, cur =>
    let tag := chunk data cur 1
    if tag = [115] then string_from_bytes data cur
    else if tag = [105] then int_from_bytes data cur
    else if tag = [98] then bool_from_bytes data cur
    else if tag = [78] then null_from_bytes data cur
    else if tag = [97] then do
      let c1 ← read_must data cur [97]
      let c2 ← read_must data c1 [58]
      let (szb, c3) ← ruE data c2 [58]
      let sz ← pyIntE szb
      let c4 ← read_must data c3 [58]
      let c5 ← read_must data c4 [123]
      let (items, c6) ← decodeN (fun c => from_bytes f data c) sz.toNat c5
      let c7 ← read_must data c6 [125]
      .ok (.arr items, c7)
    else if tag = [100] then decimal_from_bytes data cur
    else if tag = [79] then do
      let c1 ← read_must data cur [79]
      let c2 ← read_must data c1 [58]
      let (szb, c3) ← ruE data c2 [58]
      let sz ← pyIntE szb
      let c4 ← read_must data c3 [58]
      let c5 ← read_must data c4 [34]
      let (name, c6) := read_bytes data c5 sz
      let c7 ← read_must data c6 [34]
      let c8 ← read_must data c7 [58]
      let (cntb, c9) ← ruE data c8 [58]
      let cnt ← pyIntE cntb
      let c10 ← read_must data c9 [58]
      let c11 ← read_must data c10 [123]
      let (props, c12) ← decodeN (fun c => from_bytes f data c) cnt.toNat c11
      let c13 ← read_must data c12 [125]
      .ok (.obj name props, c13)
    else .error (.parseError cur)

/-- `php_unserialize`: decode one value from position 0 (trailing bytes are
ignored, as in the source).  Fuel `length + 1` bounds the recursion depth,
which the byte grammar keeps below the input length. -/
def php_unserialize (data : List Nat) : Except PErr Value :=
  (from_bytes (data.length + 1) data 0).map (fun r => r.1)

/-- Re-encoding of a decoded wire string: `serialize(unserialize(b))`,
`none` when either direction fails. -/
def reencode (b : List Nat) : Option (List Nat) :=
  match php_unserialize b with
  | .ok v => php_serialize v
  | .error _ => none

mutual
/-- `Query._get`: empty selector returns the whole tree; on a pair list the
first key equal (Python `==`) to the selector head selects the value to
recurse into; objects are transparent (the full selector is applied to the
property list); everything else yields `None` (`null`).  Never fails. -/
def qget : List Value → Value → Value
  | [], st => st
  | s :: rest, .arr items => qgetScan s rest items
  | s :: rest, .obj _ props => qgetScan s rest props
  | _ :: _, _ => .null
  termination_by sel st => (sel.length, sizeOf st)
/-- Linear scan of `Query._get` over the pairs (`key == to_get`). -/
def qgetScan : Value → List Value → Pairs → Value
  | _, _, .nil => .null
  | s, rest, .cons k w tl => if pyEq k s then qget rest w else qgetScan s rest tl
  termination_by _ rest items => (rest.length + 1, sizeOf items)
end

mutual
/-- `Query._set`: empty selector replaces the whole tree; on arrays the pair
list is rebuilt, the value of every pair whose key equals (Python `==`) the
selector head being replaced by the recursive set result; when no key
matched, a single new pair `(head, set(rest, value, []))` is appended; on
objects the class name is kept and the property list edited; other shapes
raise `ValueError`. -/
def qset : List Value → Value → Value → Except PErr Value
  | [], v, _ => .ok v
  | s :: rest, v, .arr items => do
      let (l, found) ← qsetScan s rest v items
      if found then .ok (.arr l)
      else do
        let nv ← qset rest v (.arr .nil)
        .ok (.arr (pairsAppend l (.cons s nv .nil)))
  | s :: rest, v, .obj name props => do
      let (l, found) ← qsetScan s rest v props
      if found then .ok (.obj name l)
      else do
        let nv ← qset rest v (.arr .nil)
        .ok (.obj name (pairsAppend l (.cons s nv .nil)))
  | _ :: _, _, _ => .error .valueError
  termination_by sel _ st => (sel.length, sizeOf st)
/-- The rebuild loop of `Query._set` (`key == item_key`); the boolean is the
negation of `value_must_be_created`, i.e. whether any key matched. -/
def qsetScan : Value → List Value → Value → Pairs → Except PErr (Pairs × Bool)
  | _, _, _, .nil => .ok (.nil, false)
  | s, rest, v, .cons k w tl =>
      if pyEq s k then do
        let w2 ← qset rest v w
        let (tl2, _) ← qsetScan s rest v tl
        .ok (.cons k w2 tl2, true)
      else do
        let (tl2, found) ← qsetScan s rest v tl
        .ok (.cons k w tl2, found)
  termination_by _ rest _ items => (rest.length + 1, sizeOf items)
end

/-- The depth-1 comprehension of `Query._delete`: drop every pair whose key
equals (Python `==`) the selector head, keeping the others in order. -/
def delAll (s : Value) : Pairs → Pairs
  | .nil => .nil
  | .cons k w tl => if pyEq k s then delAll s tl else .cons k w (delAll s tl)

mutual
/-- `Query._delete`: empty selector is a no-op; on a pair list a length-1
selector removes every pair whose key matches, a longer selector recurses
into every matching pair's value; objects keep their class name; other
shapes raise `ValueError`. -/
def qdelete : List Value → Value → Except PErr Value
  | [], st => .ok st
  | s :: rest, .arr items =>
      if rest = [] then .ok (.arr (delAll s items))
      else (qdelScan s rest items).map (fun l => .arr l)
  | s :: rest, .obj name props =>
      if rest = [] then .ok (.obj name (delAll s props))
      else (qdelScan s rest props).map (fun l => .obj name l)
  | _ :: _, _ => .error .valueError
  termination_by sel st => (sel.length, sizeOf st)
/-- The deep-delete loop of `Query._delete` (`key == to_delete`). -/
def qdelScan : Value → List Value → Pairs → Except PErr Pairs
  | _, _, .nil => .ok .nil
  | s, rest, .cons k w tl =>
      if pyEq k s then do
        let w2 ← qdelete rest w
        let tl2 ← qdelScan s rest tl
        .ok (.cons k w2 tl2)
      else do
        let tl2 ← qdelScan s rest tl
        .ok (.cons k w tl2)
  termination_by _ rest items => (rest.length + 1, sizeOf items)
end

/-- `is_valid_int_start` applied to a one-byte chunk: a decimal digit or a
minus sign; the empty chunk (end of data) never qualifies. -/
def isIntStartB (l : List Nat) : Bool :=
  match l with
  | [c] => (48 ≤ c && c ≤ 57) || c = 45
  | _ => false

/-- The character loop of `Query._parse_string`, with fuel (the position
strictly advances, so fuel `data.length + 1` always suffices): backslash
(92) escapes the next byte, an unescaped quote (34) ends the string, end of
data is a `ParseError` at the current position (incomplete escape or
unterminated string; messages elided). -/
def parse_string_loop (data : List Nat) : Nat → Nat → Bool → List Nat → Except PErr (List Nat × Nat)
  | 0, _, _, _ => .error .outOfFuel
  | g + 1, cur, escaping, acc =>
      if cur ≥ data.length then .error (.parseError cur)
      else if escaping then
        parse_string_loop data g (cur + 1) false (acc ++ chunk data cur 1)
      else if chunk data cur 1 = [92] then
        parse_string_loop data g (cur + 1) true acc
      else if chunk data cur 1 = [34] then .ok (acc, cur + 1)
      else parse_string_loop data g (cur + 1) false (acc ++ chunk data cur 1)

/-- `Query._parse_string`: an opening quote then the character loop. -/
def parse_string (data : List Nat) (cur : Nat) : Except PErr (List Nat × Nat) := do
  let c1 ← read_must data cur [34]
  parse_string_loop data (data.length + 1) c1 false []

/-- `Query._parse_number`: optional minus, a digit run, and optionally a dot
with a second digit run; an empty token is a `ParseError`, while the final
`int(...)` / `float(...)` conversions can raise `ValueError` (notably a lone
minus, which defeats the empty-token guard because the guard tests the
buffer that already holds the minus sign). -/
def parse_number (data : List Nat) (cur : Nat) : Except PErr (Value × Nat) :=
  let hasMinus : Bool := chunk data cur 1 = [45]
  let c0 := if hasMinus then cur + 1 else cur
  let ds := (data.drop c0).takeWhile isDigitB
  let c1 := c0 + ds.length
  if hasMinus = false && ds = [] then .error (.parseError c1)
  else if chunk data c1 1 ≠ [46] then
    match pyInt ((if hasMinus then [45] else []) ++ ds) with
    | some z => .ok (.int z, c1)
    | none => .error .valueError
  else
    let c2 := c1 + 1
    let fs := (data.drop c2).takeWhile isDigitB
    let c3 := c2 + fs.length
    match pyFloatTok ((if hasMinus then [45] else []) ++ ds ++ [46] ++ fs) with
    | some me => .ok (.float me.1 me.2, c3)
    | none => .error .valueError

/-- The segment loop of `Query._parse_selector`: a string or number segment,
then either a slash (47) and another segment, an equals (61) or end of data
ending the selector, or a `ParseError`.  Fuel as in `parse_string_loop`. -/
def parse_selector_loop (data : List Nat) : Nat → Nat → Except PErr (List Value × Nat)
  | 0, _ => .error .outOfFuel
  | g + 1, cur => do
      let (item, c1) ←
        if chunk data cur 1 = [34] then
          (parse_string data cur).map (fun r => (Value.bytes r.1, r.2))
        else if isIntStartB (chunk data cur 1) then parse_number data cur
        else .error (.parseError cur)
      if c1 ≥ data.length then .ok ([item], c1)
      else if chunk data c1 1 = [47] then do
        let c2 ← read_must data c1 [47]
        let (rest, c3) ← parse_selector_loop data g c2
        .ok (item :: rest, c3)
      else if chunk data c1 1 = [61] then .ok ([item], c1)
      else .error (.parseError c1)

/-- `Query._parse_selector`: empty at end of data or before an equals sign,
otherwise the segment loop. -/
def parse_selector (data : List Nat) (cur : Nat) : Except PErr (List Value × Nat) :=
  if cur ≥ data.length || chunk data cur 1 = [61] then .ok ([], cur)
  else parse_selector_loop data (data.length + 1) cur

/-- The item loop of `Query._parse_array` including the closing
`read_must(']')`: pairs `value : value` separated by commas (44), ended by a
closing bracket (93); any other byte after a pair is a `ParseError`.  The
element parser is passed in (it is `parse_value` at one fuel lower). -/
def parse_array_items (pv : Nat → Except PErr (Value × Nat)) (data : List Nat) :
    Nat → Nat → Except PErr (Pairs × Nat)
  | 0, _ => .error .outOfFuel
  | g + 1, cur =>
      if cur ≥ data.length || chunk data cur 1 = [93] then
        (read_must data cur [93]).map (fun c => (Pairs.nil, c))
      else do
        let (k, c1) ← pv cur
        let c2 ← read_must data c1 [58]
        let (v, c3) ← pv c2
        if chunk data c3 1 = [44] then do
          let c4 ← read_must data c3 [44]
          let (tl, c5) ← parse_array_items pv data g c4
          .ok (.cons k v tl, c5)
        else if chunk data c3 1 = [93] then do
          let (tl, c5) ← parse_array_items pv data g c3
          .ok (.cons k v tl, c5)
        else .error (.parseError c3)

/-- `Query._parse_array`: an opening bracket (91) then the item loop. -/
def parse_array (pv : Nat → Except PErr (Value × Nat)) (data : List Nat)
    (g : Nat) (cur : Nat) : Except PErr (Pairs × Nat) := do
  let c1 ← read_must data cur [91]
  parse_array_items pv data g c1

/-- `Query._parse_object`: `{` (123), a string class name which must be
nonempty (else a `ParseError` at the position after the name), a comma, an
array of properties, and `}` (125). -/
def parse_object (pv : Nat → Except PErr (Value × Nat)) (data : List Nat)
    (g : Nat) (cur : Nat) : Except PErr ((List Nat × Pairs) × Nat) := do
  let c1 ← read_must data cur [123]
  let (name, c2) ← parse_string data c1
  if name = [] then .error (.parseError c2)
  else do
    let c3 ← read_must data c2 [44]
    let (props, c4) ← parse_array pv data g c3
    let c5 ← read_must data c4 [125]
    .ok ((name, props), c5)

/-- `Query._parse_true`. -/
def parse_true (data : List Nat) (cur : Nat) : Except PErr (Value × Nat) :=
  (read_must data cur [116, 114, 117, 101]).map (fun c => (Value.bool true, c))

/-- `Query._parse_false`. -/
def parse_false (data : List Nat) (cur : Nat) : Except PErr (Value × Nat) :=
  (read_must data cur [102, 97, 108, 115, 101]).map (fun c => (Value.bool false, c))

/-- `Query._parse_null` (returns Python `None`). -/
def parse_null (data : List Nat) (cur : Nat) : Except PErr (Value × Nat) :=
  (read_must data cur [110, 117, 108, 108]).map (fun c => (Value.null, c))

/-- `Query._parse_value`: dispatch on the next byte — quote, bracket, brace,
`t`, `f`, `n`, or an integer start; anything else is a `ParseError`. -/
def parse_value : Nat → List Nat → Nat → Except PErr (Value × Nat)
  | 0, _, _ => .error .outOfFuel
  | f + 1, data, cur =>
    let c := chunk data cur 1
    if c = [34] then (parse_string data cur).map (fun r => (Value.bytes r.1, r.2))
    else if c = [91] then
      (parse_array (fun c0 => parse_value f data c0) data f cur).map
        (fun r => (Value.arr r.1, r.2))
    else if c = [123] then
      (parse_object (fun c0 => parse_value f data c0) data f cur).map
        (fun r => (Value.obj r.1.1 r.1.2, r.2))
    else if c = [116] then parse_true data cur
    else if c = [102] then parse_false data cur
    else if c = [110] then parse_null data cur
    else if isIntStartB c then parse_number data cur
    else .error (.parseError cur)

/-- `Query._parse_command`: a command byte `G` (71), `S` (83) or `D` (68),
a colon, a selector, and for `S` an equals sign and a value; other command
bytes are a `ParseError` at position 0.  The value slot is Python `None`
(`null`) for `G` and `D`. -/
def parse_command (data : List Nat) : Except PErr (List Nat × List Value × Value) :=
  let cid := chunk data 0 1
  if cid = [71] || cid = [83] || cid = [68] then do
    let c1 ← read_must data 0 cid
    let c2 ← read_must data c1 [58]
    let (sel, c3) ← parse_selector data c2
    if cid = [83] then do
      let c4 ← read_must data c3 [61]
      let (v, _) ← parse_value (data.length + 1) data c4
      .ok (cid, sel, v)
    else .ok (cid, sel, .null)
  else .error (.parseError 0)

/-- `Query.run`: parse the expression and apply the corresponding editor
operation to the structure. -/
def runQuery (struc : Value) (expr : List Nat) : Except PErr Value := do
  let (cmd, sel, v) ← parse_command expr
  if cmd = [83] then qset sel v struc
  else if cmd = [71] then .ok (qget sel struc)
  else qdelete sel struc

/-- Spec-described variant of the `Set` rebuild (claim C3's wording):
replace the value of only the FIRST pair whose key matches, leaving later
duplicates untouched; the boolean reports whether a match was found.  The
source replaces every matching pair, so the two differ on duplicate keys. -/
def setFirstScan (s : Value) (rest : List Value) (v : Value) : Pairs → Except PErr (Pairs × Bool)
  | .nil => .ok (.nil, false)
  | .cons k w tl =>
      if pyEq s k then do
        let w2 ← qset rest v w
        .ok (.cons k w2 tl, true)
      else do
        let (tl2, found) ← setFirstScan s rest v tl
        .ok (.cons k w tl2, found)

/-- Spec-described `Set` on an array under claim C3's first-match wording. -/
def setFirstArr (s : Value) (rest : List Value) (v : Value) (items : Pairs) :
    Except PErr Value := do
  let (l, found) ← setFirstScan s rest v items
  if found then .ok (.arr l)
  else do
    let nv ← qset rest v (.arr .nil)
    .ok (.arr (pairsAppend l (.cons s nv .nil)))

/-- Does any pair's key match (Python `==`) the selector head, in `Set`'s
comparison order `selector_head == key`? -/
def pairsAnyKeyS (s : Value) : Pairs → Bool
  | .nil => false
  | .cons k _ tl => pyEq s k || pairsAnyKeyS s tl

/-- Does any pair's key match (Python `==`) the selector head, in `Get`'s
comparison order `key == selector_head`? -/
def pairsAnyKeyG (items : Pairs) (s : Value) : Bool :=
  match items with
  | .nil => false
  | .cons k _ tl => pyEq k s || pairsAnyKeyG tl s

/-- Replace the value of every pair whose key matches the selector head by
the recursive set result (the amended reading of claim C3), keeping order. -/
def replaceAllSpec (s : Value) (rest : List Value) (v : Value) : Pairs → Except PErr Pairs
  | .nil => .ok .nil
  | .cons k w tl => do
      let w2 ← if pyEq s k then qset rest v w else .ok w
      let tl2 ← replaceAllSpec s rest v tl
      .ok (.cons k w2 tl2)

/-- The amended specification of `Set` on an array: replace the value of
every matching pair, or append one freshly-created pair when nothing
matched. -/
def setSpecArr (s : Value) (rest : List Value) (v : Value) (items : Pairs) :
    Except PErr Value :=
  if pairsAnyKeyS s items then (replaceAllSpec s rest v items).map (fun l => .arr l)
  else do
    let nv ← qset rest v (.arr .nil)
    .ok (.arr (pairsAppend items (.cons s nv .nil)))

/-- Shapes with addressable children (`list` or the `is_object` tuple). -/
def isContainer : Value → Bool
  | .arr _ => true
  | .obj _ _ => true
  | _ => false

theorem natDigitsAux_append (f : Nat) : ∀ n acc, natDigitsAux f n acc = natDigitsAux f n [] ++ acc := by
  induction f with
  | zero => intro n acc; simp [natDigitsAux]
  | succ f ih =>
    intro n acc
    by_cases h : n < 10
    · simp [natDigitsAux, h]
    · simp only [natDigitsAux, if_neg h]
      rw [ih (n / 10) ((48 + n % 10) :: acc), ih (n / 10) [48 + n % 10]]
      simp

theorem natDigitsAux_fuel (n : Nat) : ∀ f1 f2, n < f1 → n < f2 →
    natDigitsAux f1 n [] = natDigitsAux f2 n [] := by
  induction n using Nat.strong_induction_on with
  | _ n ih =>
    intro f1 f2 h1 h2
    match f1, f2 with
    | g1 + 1, g2 + 1 =>
      by_cases h : n < 10
      · simp [natDigitsAux, h]
      · simp only [natDigitsAux, if_neg h]
        rw [natDigitsAux_append g1, natDigitsAux_append g2]
        have hdiv : n / 10 < n := Nat.div_lt_self (by omega) (by omega)
        rw [ih (n / 10) hdiv g1 g2 (by omega) (by omega)]

theorem natDigits_lt (n : Nat) (h : n < 10) : natDigits n = [48 + n] := by
  simp [natDigits, natDigitsAux, h]

theorem natDigits_ge (n : Nat) (h : 10 ≤ n) :
    natDigits n = natDigits (n / 10) ++ [48 + n % 10] := by
  have h1 : ¬ n < 10 := by omega
  have hdiv : n / 10 < n := Nat.div_lt_self (by omega) (by omega)
  conv_lhs => rw [natDigits]
  simp only [natDigitsAux, if_neg h1]
  rw [natDigitsAux_append n]
  congr 1
  rw [natDigits]
  exact natDigitsAux_fuel (n / 10) n (n / 10 + 1) hdiv (by omega)

theorem natDigits_digits (n : Nat) : ∀ c ∈ natDigits n, 48 ≤ c ∧ c ≤ 57 := by
  induction n using Nat.strong_induction_on with
  | _ n ih =>
    intro c hc
    by_cases h : n < 10
    · rw [natDigits_lt n h] at hc
      simp at hc
      omega
    · rw [natDigits_ge n (by omega)] at hc
      rcases List.mem_append.mp hc with h1 | h2
      · exact ih (n / 10) (Nat.div_lt_self (by omega) (by omega)) c h1
      · rw [List.mem_singleton] at h2
        have hm : n % 10 < 10 := Nat.mod_lt n (by omega)
        omega

theorem foldl_digitsVal (l : List Nat) : ∀ init : Nat,
    l.foldl (fun a c => a * 10 + (c - 48)) init = init * 10 ^ l.length + digitsVal l := by
  induction l with
  | nil => intro init; simp [digitsVal]
  | cons d tl ih =>
    intro init
    simp only [List.foldl_cons, List.length_cons]
    rw [ih (init * 10 + (d - 48))]
    have hd : digitsVal (d :: tl) = (d - 48) * 10 ^ tl.length + digitsVal tl := by
      simp only [digitsVal, List.foldl_cons]
      rw [ih (0 * 10 + (d - 48))]
      simp [digitsVal]
    rw [hd]
    ring

theorem digitsVal_append (a b : List Nat) :
    digitsVal (a ++ b) = digitsVal a * 10 ^ b.length + digitsVal b := by
  unfold digitsVal
  rw [List.foldl_append, foldl_digitsVal b]
  rfl

theorem digitsVal_natDigits (n : Nat) : digitsVal (natDigits n) = n := by
  induction n using Nat.strong_induction_on with
  | _ n ih =>
    by_cases h : n < 10
    · rw [natDigits_lt n h]
      simp [digitsVal]
    · rw [natDigits_ge n (by omega)]
      rw [digitsVal_append]
      rw [ih (n / 10) (Nat.div_lt_self (by omega) (by omega))]
      have : digitsVal [48 + n % 10] = n % 10 := by simp [digitsVal]
      rw [this]
      simp
      omega

theorem natDigits_ne_nil (n : Nat) : natDigits n ≠ [] := by
  by_cases h : n < 10
  · rw [natDigits_lt n h]; simp
  · rw [natDigits_ge n (by omega)]; simp

theorem natDigits_length_le (n : Nat) : ∀ e, 1 ≤ e → n < 10 ^ e →
    (natDigits n).length ≤ e := by
  induction n using Nat.strong_induction_on with
  | _ n ih =>
    intro e he hpow
    by_cases h : n < 10
    · rw [natDigits_lt n h]; simpa using he
    · rw [natDigits_ge n (by omega)]
      match e, he with
      | 1, _ =>
        exfalso
        simp at hpow
        omega
      | e' + 2, _ =>
        have hdiv : n / 10 < 10 ^ (e' + 1) := by
          rw [Nat.div_lt_iff_lt_mul (by omega)]
          calc n < 10 ^ (e' + 2) := hpow
            _ = 10 ^ (e' + 1) * 10 := by ring
        have := ih (n / 10) (Nat.div_lt_self (by omega) (by omega)) (e' + 1) (by omega) hdiv
        simp only [List.length_append, List.length_cons, List.length_nil]
        omega

theorem dropWhile_all_false {p : Nat → Bool} (l : List Nat)
    (h : ∀ c ∈ l, p c = false) : l.dropWhile p = l := by
  cases l with
  | nil => rfl
  | cons a tl =>
    rw [List.dropWhile_cons]
    rw [h a (by simp)]
    simp

theorem trimWS_id (l : List Nat) (h : ∀ c ∈ l, isWSb c = false) : trimWS l = l := by
  unfold trimWS
  rw [dropWhile_all_false l h,
    dropWhile_all_false l.reverse (by intro c hc; exact h c (List.mem_reverse.mp hc)),
    List.reverse_reverse]

theorem isWSb_digit (c : Nat) (h : 48 ≤ c) : isWSb c = false := by
  simp [isWSb]
  omega

theorem digitsTail_all_digits (l : List Nat) (h : ∀ c ∈ l, isDigitB c = true) :
    digitsTail l = some l := by
  induction l with
  | nil => rfl
  | cons c tl ih =>
    have hc : isDigitB c = true := h c (by simp)
    have h95 : c ≠ 95 := by
      intro e
      rw [e] at hc
      simp [isDigitB] at hc
    rw [digitsTail.eq_def]
    simp only [if_neg h95, hc, if_true]
    rw [ih (fun d hd => h d (by simp [hd]))]
    rfl

theorem pyIntDigits_all_digits (l : List Nat) (hne : l ≠ [])
    (h : ∀ c ∈ l, isDigitB c = true) : pyIntDigits l = some (digitsVal l) := by
  match l, hne with
  | c :: tl, _ =>
    rw [pyIntDigits]
    rw [h c (by simp)]
    rw [digitsTail_all_digits tl (fun d hd => h d (by simp [hd]))]
    rfl

theorem natDigits_isDigitB (n : Nat) : ∀ c ∈ natDigits n, isDigitB c = true := by
  intro c hc
  have := natDigits_digits n c hc
  simp [isDigitB]
  omega

theorem pyInt_natDigits (n : Nat) : pyInt (natDigits n) = some (n : Int) := by
  unfold pyInt
  rw [trimWS_id (natDigits n)
    (fun c hc => isWSb_digit c (natDigits_digits n c hc).1)]
  match hnd : natDigits n with
  | [] => exact absurd hnd (natDigits_ne_nil n)
  | c :: r =>
    have hc : 48 ≤ c ∧ c ≤ 57 := natDigits_digits n c (by rw [hnd]; simp)
    rw [pyIntSigned]
    rw [if_neg (by omega), if_neg (by omega)]
    rw [← hnd]
    rw [pyIntDigits_all_digits (natDigits n) (natDigits_ne_nil n) (natDigits_isDigitB n)]
    rw [digitsVal_natDigits]
    rfl

theorem pyInt_intDigits (z : Int) : pyInt (intDigits z) = some z := by
  unfold intDigits
  by_cases hz : z < 0
  · rw [if_pos hz]
    unfold pyInt
    rw [trimWS_id (45 :: natDigits z.natAbs) (by
      intro c hc
      rcases List.mem_cons.mp hc with h45 | hd
      · rw [h45]; rfl
      · exact isWSb_digit c (natDigits_digits _ c hd).1)]
    rw [pyIntSigned]
    rw [if_pos rfl]
    rw [pyIntDigits_all_digits (natDigits z.natAbs) (natDigits_ne_nil _) (natDigits_isDigitB _)]
    rw [digitsVal_natDigits]
    have hval : -((z.natAbs : Int)) = z := by omega
    simp [hval]
    rw [abs_of_neg hz]
    ring
  · rw [if_neg hz]
    rw [pyInt_natDigits]
    congr 1
    omega

theorem takeWhile_all_true {p : Nat → Bool} : ∀ (a b : List Nat), (∀ c ∈ a, p c = true) →
    (a ++ b).takeWhile p = a ++ b.takeWhile p := by
  intro a
  induction a with
  | nil => intro b _; simp
  | cons x tl ih =>
    intro b h
    simp only [List.cons_append, List.takeWhile_cons]
    rw [h x (by simp)]
    simp only [if_true]
    rw [ih b (fun c hc => h c (by simp [hc]))]

theorem dropWhile_all_true {p : Nat → Bool} : ∀ (a b : List Nat), (∀ c ∈ a, p c = true) →
    (a ++ b).dropWhile p = b.dropWhile p := by
  intro a
  induction a with
  | nil => intro b _; simp
  | cons x tl ih =>
    intro b h
    simp only [List.cons_append, List.dropWhile_cons]
    rw [h x (by simp)]
    simp only [if_true]
    exact ih b (fun c hc => h c (by simp [hc]))

theorem takeWhile_all_false {p : Nat → Bool} (l : List Nat)
    (h : ∀ c ∈ l, p c = false) : l.takeWhile p = [] := by
  cases l with
  | nil => rfl
  | cons a tl =>
    rw [List.takeWhile_cons, h a (by simp)]
    simp

theorem digitsVal_replicate_zero (k : Nat) : ∀ l : List Nat,
    digitsVal (List.replicate k 48 ++ l) = digitsVal l := by
  induction k with
  | zero => intro l; simp
  | succ k ih =>
    intro l
    rw [List.replicate_succ]
    simp only [List.cons_append, digitsVal, List.foldl_cons]
    have : (0 * 10 + (48 - 48)) = 0 := by norm_num
    rw [this]
    exact ih l

theorem padZeros_length (e : Nat) (l : List Nat) (h : l.length ≤ e) :
    (padZeros e l).length = e := by
  simp [padZeros]
  omega

theorem padZeros_digits (e : Nat) (l : List Nat) (h : ∀ c ∈ l, 48 ≤ c ∧ c ≤ 57) :
    ∀ c ∈ padZeros e l, 48 ≤ c ∧ c ≤ 57 := by
  intro c hc
  rcases List.mem_append.mp hc with h1 | h2
  · have := List.eq_of_mem_replicate h1
    omega
  · exact h c h2

theorem digitsVal_padZeros (e : Nat) (l : List Nat) :
    digitsVal (padZeros e l) = digitsVal l := by
  unfold padZeros
  exact digitsVal_replicate_zero (e - l.length) l

theorem renderFloat_mem (m : Int) (e : Nat) :
    ∀ c ∈ renderFloat m e, c = 45 ∨ c = 46 ∨ (48 ≤ c ∧ c ≤ 57) := by
  intro c hc
  unfold renderFloat at hc
  rcases List.mem_append.mp hc with h1 | h2
  · rcases List.mem_append.mp h1 with h3 | h4
    · by_cases hm : m < 0
      · rw [if_pos hm] at h3
        simp at h3
        left
        exact h3
      · rw [if_neg hm] at h3
        simp at h3
    · right; right
      exact natDigits_digits _ c h4
  · by_cases he : e = 0
    · rw [if_pos he] at h2
      simp at h2
    · rw [if_neg he] at h2
      rcases List.mem_cons.mp h2 with h5 | h6
      · right; left; exact h5
      · right; right
        exact padZeros_digits e _ (fun d hd => natDigits_digits _ d hd) c h6

theorem intDigits_mem (z : Int) :
    ∀ c ∈ intDigits z, c = 45 ∨ (48 ≤ c ∧ c ≤ 57) := by
  intro c hc
  unfold intDigits at hc
  by_cases hz : z < 0
  · rw [if_pos hz] at hc
    rcases List.mem_cons.mp hc with h1 | h2
    · left; exact h1
    · right; exact natDigits_digits _ c h2
  · rw [if_neg hz] at hc
    right; exact natDigits_digits _ c hc

theorem takeWhile_id {p : Nat → Bool} (l : List Nat) (h : ∀ c ∈ l, p c = true) :
    l.takeWhile p = l := by
  induction l with
  | nil => rfl
  | cons a tl ih =>
    rw [List.takeWhile_cons, h a (by simp)]
    simp only [if_true]
    rw [ih (fun c hc => h c (by simp [hc]))]

theorem dropWhile_id_nil {p : Nat → Bool} (l : List Nat) (h : ∀ c ∈ l, p c = true) :
    l.dropWhile p = [] := by
  induction l with
  | nil => rfl
  | cons a tl ih =>
    rw [List.dropWhile_cons, h a (by simp)]
    simp only [if_true]
    exact ih (fun c hc => h c (by simp [hc]))

theorem pyFloatCore_digits (neg : Bool) (a : Nat) :
    pyFloatCore neg (natDigits a) = some (signApply neg a, 0) := by
  unfold pyFloatCore
  rw [takeWhile_id (natDigits a) (natDigits_isDigitB a),
    dropWhile_id_nil (natDigits a) (natDigits_isDigitB a)]
  simp only []
  rw [if_neg (by simp [List.isEmpty_iff, natDigits_ne_nil])]
  rw [digitsVal_natDigits]


theorem pyFloatCore_frac (neg : Bool) (a b e : Nat) (he : 1 ≤ e) (hb : b < 10 ^ e) :
    pyFloatCore neg (natDigits a ++ 46 :: padZeros e (natDigits b)) =
      some (signApply neg (a * 10 ^ e + b), e) := by
  have hfd : ∀ c ∈ padZeros e (natDigits b), isDigitB c = true := by
    intro c hc
    have := padZeros_digits e _ (fun d hd => natDigits_digits _ d hd) c hc
    simp [isDigitB]
    omega
  unfold pyFloatCore
  rw [takeWhile_all_true (natDigits a) _ (natDigits_isDigitB a),
    dropWhile_all_true (natDigits a) _ (natDigits_isDigitB a)]
  have h46 : isDigitB 46 = false := by rfl
  rw [List.takeWhile_cons, List.dropWhile_cons, h46]
  simp only [Bool.false_eq_true, if_false, List.append_nil, if_true]
  rw [takeWhile_id _ hfd, dropWhile_id_nil _ hfd]
  simp only [List.isEmpty_nil, if_true]
  rw [if_neg (by simp [List.isEmpty_iff, natDigits_ne_nil])]
  rw [digitsVal_append, digitsVal_padZeros, digitsVal_natDigits, digitsVal_natDigits]
  rw [padZeros_length e _ (natDigits_length_le b e he hb)]

theorem pyFloatTok_eq (s : List Nat) (c : Nat) (r : List Nat) (h : trimWS s = c :: r) :
    pyFloatTok s =
      if c = 45 then pyFloatCore true r
      else if c = 43 then pyFloatCore false r
      else pyFloatCore false (c :: r) := by
  unfold pyFloatTok
  rw [h]

theorem pyFloatTok_renderFloat (m : Int) (e : Nat) :
    pyFloatTok (renderFloat m e) = some (m, e) := by
  have hnotWS : ∀ c ∈ renderFloat m e, isWSb c = false := by
    intro c hc
    rcases renderFloat_mem m e c hc with h | h | h
    · rw [h]; rfl
    · rw [h]; rfl
    · exact isWSb_digit c h.1
  have htrim : trimWS (renderFloat m e) = renderFloat m e := trimWS_id _ hnotWS
  by_cases hm : m < 0
  · by_cases he : e = 0
    · subst he
      have hrend : renderFloat m 0 = 45 :: natDigits m.natAbs := by
        rw [renderFloat, if_pos hm]
        simp
      rw [pyFloatTok_eq _ 45 (natDigits m.natAbs) (htrim.trans hrend)]
      rw [if_pos rfl, pyFloatCore_digits]
      have hval : signApply true m.natAbs = m := by
        simp only [signApply, if_true]
        omega
      rw [hval]
    · have hrend : renderFloat m e =
          45 :: (natDigits (m.natAbs / 10 ^ e) ++
            46 :: padZeros e (natDigits (m.natAbs % 10 ^ e))) := by
        rw [renderFloat, if_pos hm, if_neg he]
        simp
      rw [pyFloatTok_eq _ 45 _ (htrim.trans hrend)]
      rw [if_pos rfl,
        pyFloatCore_frac true _ _ e (by omega) (Nat.mod_lt _ (by positivity))]
      have hval : signApply true (m.natAbs / 10 ^ e * 10 ^ e + m.natAbs % 10 ^ e) = m := by
        rw [Nat.div_add_mod']
        simp only [signApply, if_true]
        omega
      rw [hval]
  · by_cases he : e = 0
    · subst he
      have hrend : renderFloat m 0 = natDigits m.natAbs := by
        rw [renderFloat, if_neg hm]
        simp
      match hnd : natDigits m.natAbs with
      | [] => exact absurd hnd (natDigits_ne_nil _)
      | c :: r =>
        have hc : 48 ≤ c ∧ c ≤ 57 := natDigits_digits _ c (by rw [hnd]; simp)
        rw [pyFloatTok_eq _ c r (htrim.trans (hrend.trans hnd))]
        rw [if_neg (by omega), if_neg (by omega), ← hnd, pyFloatCore_digits]
        have hval : signApply false m.natAbs = m := by
          simp only [signApply, Bool.false_eq_true, if_false]
          omega
        rw [hval]
    · have hrend : renderFloat m e =
          natDigits (m.natAbs / 10 ^ e) ++
            46 :: padZeros e (natDigits (m.natAbs % 10 ^ e)) := by
        rw [renderFloat, if_neg hm, if_neg he]
        simp
      match hnd : natDigits (m.natAbs / 10 ^ e) with
      | [] => exact absurd hnd (natDigits_ne_nil _)
      | c :: r =>
        have hc : 48 ≤ c ∧ c ≤ 57 := natDigits_digits _ c (by rw [hnd]; simp)
        have hsplit : trimWS (renderFloat m e) =
            c :: (r ++ 46 :: padZeros e (natDigits (m.natAbs % 10 ^ e))) := by
          rw [htrim, hrend, hnd]
          simp
        rw [pyFloatTok_eq _ c _ hsplit]
        rw [if_neg (by omega), if_neg (by omega), ← List.cons_append, ← hnd]
        rw [pyFloatCore_frac false _ _ e (by omega) (Nat.mod_lt _ (by positivity))]
        have hval : signApply false (m.natAbs / 10 ^ e * 10 ^ e + m.natAbs % 10 ^ e) = m := by
          rw [Nat.div_add_mod']
          simp only [signApply, Bool.false_eq_true, if_false]
          omega
        rw [hval]

theorem chunk_of_drop (data : List Nat) (cur : Nat) (s rest : List Nat)
    (h : data.drop cur = s ++ rest) : chunk data cur (s.length : Int) = s := by
  have hld := List.length_drop cur data
  rw [h, List.length_append] at hld
  by_cases hcur : cur ≤ data.length
  · unfold chunk pySlice pySliceEnd
    rw [if_neg (by omega)]
    have ht : ((cur : Int) + (s.length : Int)).toNat = cur + s.length := by omega
    rw [ht]
    have hle : cur + s.length ≤ data.length := by omega
    rw [min_eq_left hle]
    rw [List.drop_take]
    have hss : cur + s.length - cur = s.length := by omega
    rw [hss, h]
    exact List.take_left s rest
  · have hnil : data.drop cur = [] := by
      apply List.drop_eq_nil_of_le
      omega
    rw [hnil] at h
    have hs : s = [] := by
      cases s with
      | nil => rfl
      | cons a tl => simp at h
    subst hs
    simp only [List.length_nil, Nat.cast_zero]
    unfold chunk pySlice pySliceEnd
    apply List.drop_eq_nil_of_le
    have := List.length_take (pySliceEnd data.length ((cur : Int) + 0)) data
    calc (data.take (pySliceEnd data.length ((cur : Int) + 0))).length
        ≤ data.length := by rw [List.length_take]; omega
      _ ≤ cur := by omega

theorem drop_of_drop (data : List Nat) (cur : Nat) (s rest : List Nat)
    (h : data.drop cur = s ++ rest) : data.drop (cur + s.length) = rest := by
  rw [← List.drop_drop]
  rw [h, List.drop_left]

theorem read_must_of_drop (data : List Nat) (cur : Nat) (e rest : List Nat)
    (hne : e ≠ []) (h : data.drop cur = e ++ rest) :
    read_must data cur e = .ok (cur + e.length) := by
  have hld := List.length_drop cur data
  rw [h, List.length_append] at hld
  have hcur : cur < data.length := by
    by_contra hc
    have hnil : data.drop cur = [] := List.drop_eq_nil_of_le (by omega)
    rw [hnil] at h
    cases e with
    | nil => exact hne rfl
    | cons a tl => simp at h
  unfold read_must
  rw [if_neg (by omega)]
  rw [if_neg (by rw [chunk_of_drop data cur e rest h]; simp)]

theorem read_bytes_of_drop (data : List Nat) (cur : Nat) (s rest : List Nat)
    (h : data.drop cur = s ++ rest) :
    read_bytes data cur (s.length : Int) = (s, cur + s.length) := by
  unfold read_bytes
  rw [chunk_of_drop data cur s rest h]

theorem findMarker_first (m : Nat) : ∀ (tok rest : List Nat), m ∉ tok →
    findMarker [m] (tok ++ m :: rest) = some tok.length := by
  intro tok
  induction tok with
  | nil =>
    intro rest _
    simp only [List.nil_append, findMarker]
    rw [if_pos (by simp [List.isPrefixOf])]
    rfl
  | cons a tl ih =>
    intro rest hm
    have ha : m ≠ a := by
      intro e
      exact hm (by simp [e])
    simp only [List.cons_append, findMarker]
    rw [if_neg (by simp [List.isPrefixOf, ha])]
    simp only [List.append_eq]
    rw [ih rest (fun hmem => hm (List.mem_cons_of_mem a hmem))]
    rfl

theorem ruE_of_drop (data : List Nat) (cur : Nat) (m : Nat) (tok rest : List Nat)
    (hm : m ∉ tok) (h : data.drop cur = tok ++ m :: rest) :
    ruE data cur [m] = .ok (tok, cur + tok.length) := by
  unfold ruE read_until
  rw [if_neg (by simp)]
  rw [h, findMarker_first m tok rest hm]
  simp [List.take_left]

theorem natDigits_ne_sep (n : Nat) (c : Nat) (hc : 58 ≤ c) : c ∉ natDigits n := by
  intro hmem
  have := natDigits_digits n c hmem
  omega

theorem intDigits_ne_semi (z : Int) : (59 : Nat) ∉ intDigits z := by
  intro hmem
  rcases intDigits_mem z 59 hmem with h | h <;> omega

theorem renderFloat_ne_semi (m : Int) (e : Nat) : (59 : Nat) ∉ renderFloat m e := by
  intro hmem
  rcases renderFloat_mem m e 59 hmem with h | h | h <;> omega

theorem pyIntE_natDigits (n : Nat) : pyIntE (natDigits n) = .ok (n : Int) := by
  unfold pyIntE
  rw [pyInt_natDigits]

theorem pyIntE_intDigits (z : Int) : pyIntE (intDigits z) = .ok z := by
  unfold pyIntE
  rw [pyInt_intDigits]

theorem pyFloatE_renderFloat (m : Int) (e : Nat) :
    pyFloatE (renderFloat m e) = .ok (m, e) := by
  unfold pyFloatE
  rw [pyFloatTok_renderFloat]

theorem bindE_ok {A B : Type} (a : A) (f : A → Except PErr B) :
    (Except.ok a : Except PErr A) >>= f = f a := rfl

theorem int_from_bytes_enc (data : List Nat) (cur : Nat) (z : Int) (rest : List Nat)
    (h : data.drop cur = ([105, 58] ++ intDigits z ++ [59]) ++ rest) :
    int_from_bytes data cur = .ok (.int z, cur + ((intDigits z).length + 3)) := by
  have h0 : data.drop cur = [105] ++ ([58] ++ (intDigits z ++ ([59] ++ rest))) := by
    simpa using h
  have e1 : read_must data cur [105] = .ok (cur + 1) :=
    read_must_of_drop data cur [105] _ (by simp) h0
  have h1 : data.drop (cur + 1) = [58] ++ (intDigits z ++ ([59] ++ rest)) := by
    have := drop_of_drop data cur [105] _ h0
    simpa using this
  have e2 : read_must data (cur + 1) [58] = .ok (cur + 1 + 1) :=
    read_must_of_drop data (cur + 1) [58] _ (by simp) h1
  have h2 : data.drop (cur + 1 + 1) = intDigits z ++ ([59] ++ rest) := by
    have := drop_of_drop data (cur + 1) [58] _ h1
    simpa using this
  have e3 : ruE data (cur + 1 + 1) [59] = .ok (intDigits z, cur + 1 + 1 + (intDigits z).length) :=
    ruE_of_drop data (cur + 1 + 1) 59 (intDigits z) rest (intDigits_ne_semi z) (by simpa using h2)
  have h3 : data.drop (cur + 1 + 1 + (intDigits z).length) = [59] ++ rest := by
    have := drop_of_drop data (cur + 1 + 1) (intDigits z) ([59] ++ rest) (by simpa using h2)
    simpa using this
  have e4 : read_must data (cur + 1 + 1 + (intDigits z).length) [59] =
      .ok (cur + 1 + 1 + (intDigits z).length + 1) :=
    read_must_of_drop data _ [59] _ (by simp) h3
  unfold int_from_bytes
  rw [e1]
  simp only [bindE_ok]
  rw [e2]
  simp only [bindE_ok]
  rw [e3]
  simp only [bindE_ok]
  rw [pyIntE_intDigits]
  simp only [bindE_ok]
  rw [e4]
  simp only [bindE_ok]
  congr 2
  omega

theorem decimal_from_bytes_enc (data : List Nat) (cur : Nat) (m : Int) (e : Nat) (rest : List Nat)
    (h : data.drop cur = ([100, 58] ++ renderFloat m e ++ [59]) ++ rest) :
    decimal_from_bytes data cur = .ok (.float m e, cur + ((renderFloat m e).length + 3)) := by
  have h0 : data.drop cur = [100] ++ ([58] ++ (renderFloat m e ++ ([59] ++ rest))) := by
    simpa using h
  have e1 : read_must data cur [100] = .ok (cur + 1) :=
    read_must_of_drop data cur [100] _ (by simp) h0
  have h1 : data.drop (cur + 1) = [58] ++ (renderFloat m e ++ ([59] ++ rest)) := by
    have := drop_of_drop data cur [100] _ h0
    simpa using this
  have e2 : read_must data (cur + 1) [58] = .ok (cur + 1 + 1) :=
    read_must_of_drop data (cur + 1) [58] _ (by simp) h1
  have h2 : data.drop (cur + 1 + 1) = renderFloat m e ++ ([59] ++ rest) := by
    have := drop_of_drop data (cur + 1) [58] _ h1
    simpa using this
  have e3 : ruE data (cur + 1 + 1) [59] =
      .ok (renderFloat m e, cur + 1 + 1 + (renderFloat m e).length) :=
    ruE_of_drop data (cur + 1 + 1) 59 (renderFloat m e) rest (renderFloat_ne_semi m e)
      (by simpa using h2)
  have h3 : data.drop (cur + 1 + 1 + (renderFloat m e).length) = [59] ++ rest := by
    have := drop_of_drop data (cur + 1 + 1) (renderFloat m e) ([59] ++ rest) (by simpa using h2)
    simpa using this
  have e4 : read_must data (cur + 1 + 1 + (renderFloat m e).length) [59] =
      .ok (cur + 1 + 1 + (renderFloat m e).length + 1) :=
    read_must_of_drop data _ [59] _ (by simp) h3
  unfold decimal_from_bytes
  rw [e1]
  simp only [bindE_ok]
  rw [e2]
  simp only [bindE_ok]
  rw [e3]
  simp only [bindE_ok]
  rw [pyFloatE_renderFloat]
  simp only [bindE_ok]
  rw [e4]
  simp only [bindE_ok]
  congr 2
  omega

theorem bool_from_bytes_enc (data : List Nat) (cur : Nat) (b : Bool) (rest : List Nat)
    (h : data.drop cur = [98, 58, if b then 49 else 48, 59] ++ rest) :
    bool_from_bytes data cur = .ok (.bool b, cur + 4) := by
  cases b
  · simp only [Bool.false_eq_true, if_false] at h
    have h0 : data.drop cur = [98] ++ ([58] ++ ([48] ++ ([59] ++ rest))) := by simpa using h
    have e1 : read_must data cur [98] = .ok (cur + 1) :=
      read_must_of_drop data cur [98] _ (by simp) h0
    have h1 : data.drop (cur + 1) = [58] ++ ([48] ++ ([59] ++ rest)) := by
      have := drop_of_drop data cur [98] _ h0
      simpa using this
    have e2 : read_must data (cur + 1) [58] = .ok (cur + 1 + 1) :=
      read_must_of_drop data (cur + 1) [58] _ (by simp) h1
    have h2 : data.drop (cur + 1 + 1) = [48] ++ ([59] ++ rest) := by
      have := drop_of_drop data (cur + 1) [58] _ h1
      simpa using this
    have e3 : ruE data (cur + 1 + 1) [59] = .ok ([48], cur + 1 + 1 + 1) :=
      ruE_of_drop data (cur + 1 + 1) 59 [48] rest (by simp) (by simpa using h2)
    have h3 : data.drop (cur + 1 + 1 + 1) = [59] ++ rest := by
      have := drop_of_drop data (cur + 1 + 1) [48] ([59] ++ rest) (by simpa using h2)
      simpa using this
    have e4 : read_must data (cur + 1 + 1 + 1) [59] = .ok (cur + 1 + 1 + 1 + 1) :=
      read_must_of_drop data _ [59] _ (by simp) h3
    unfold bool_from_bytes
    rw [e1]
    simp only [bindE_ok]
    rw [e2]
    simp only [bindE_ok]
    rw [e3]
    simp only [bindE_ok]
    have hpi : pyIntE [48] = .ok 0 := rfl
    rw [hpi]
    simp only [bindE_ok]
    rw [e4]
    simp only [bindE_ok]
    norm_num
  · simp only [if_true] at h
    have h0 : data.drop cur = [98] ++ ([58] ++ ([49] ++ ([59] ++ rest))) := by simpa using h
    have e1 : read_must data cur [98] = .ok (cur + 1) :=
      read_must_of_drop data cur [98] _ (by simp) h0
    have h1 : data.drop (cur + 1) = [58] ++ ([49] ++ ([59] ++ rest)) := by
      have := drop_of_drop data cur [98] _ h0
      simpa using this
    have e2 : read_must data (cur + 1) [58] = .ok (cur + 1 + 1) :=
      read_must_of_drop data (cur + 1) [58] _ (by simp) h1
    have h2 : data.drop (cur + 1 + 1) = [49] ++ ([59] ++ rest) := by
      have := drop_of_drop data (cur + 1) [58] _ h1
      simpa using this
    have e3 : ruE data (cur + 1 + 1) [59] = .ok ([49], cur + 1 + 1 + 1) :=
      ruE_of_drop data (cur + 1 + 1) 59 [49] rest (by simp) (by simpa using h2)
    have h3 : data.drop (cur + 1 + 1 + 1) = [59] ++ rest := by
      have := drop_of_drop data (cur + 1 + 1) [49] ([59] ++ rest) (by simpa using h2)
      simpa using this
    have e4 : read_must data (cur + 1 + 1 + 1) [59] = .ok (cur + 1 + 1 + 1 + 1) :=
      read_must_of_drop data _ [59] _ (by simp) h3
    unfold bool_from_bytes
    rw [e1]
    simp only [bindE_ok]
    rw [e2]
    simp only [bindE_ok]
    rw [e3]
    simp only [bindE_ok]
    have hpi : pyIntE [49] = .ok 1 := rfl
    rw [hpi]
    simp only [bindE_ok]
    rw [e4]
    simp only [bindE_ok]
    norm_num

theorem null_from_bytes_enc (data : List Nat) (cur : Nat) (rest : List Nat)
    (h : data.drop cur = [78, 59] ++ rest) :
    null_from_bytes data cur = .ok (.null, cur + 2) := by
  have h0 : data.drop cur = [78] ++ ([59] ++ rest) := by simpa using h
  have e1 : read_must data cur [78] = .ok (cur + 1) :=
    read_must_of_drop data cur [78] _ (by simp) h0
  have h1 : data.drop (cur + 1) = [59] ++ rest := by
    have := drop_of_drop data cur [78] _ h0
    simpa using this
  have e2 : read_must data (cur + 1) [59] = .ok (cur + 1 + 1) :=
    read_must_of_drop data (cur + 1) [59] _ (by simp) h1
  unfold null_from_bytes
  rw [e1]
  simp only [bindE_ok]
  rw [e2]
  simp only [bindE_ok]

theorem string_from_bytes_enc (data : List Nat) (cur : Nat) (s : List Nat) (rest : List Nat)
    (h : data.drop cur =
      ([115, 58] ++ natDigits s.length ++ [58, 34] ++ s ++ [34, 59]) ++ rest) :
    string_from_bytes data cur =
      .ok (.bytes s, cur + ((natDigits s.length).length + s.length + 6)) := by
  have h0 : data.drop cur =
      [115] ++ ([58] ++ (natDigits s.length ++ ([58] ++ ([34] ++ (s ++ ([34] ++ ([59] ++ rest))))))) := by
    simpa using h
  have e1 : read_must data cur [115] = .ok (cur + 1) :=
    read_must_of_drop data cur [115] _ (by simp) h0
  have h1 : data.drop (cur + 1) =
      [58] ++ (natDigits s.length ++ ([58] ++ ([34] ++ (s ++ ([34] ++ ([59] ++ rest)))))) := by
    have := drop_of_drop data cur [115] _ h0
    simpa using this
  have e2 : read_must data (cur + 1) [58] = .ok (cur + 1 + 1) :=
    read_must_of_drop data (cur + 1) [58] _ (by simp) h1
  have h2 : data.drop (cur + 1 + 1) =
      natDigits s.length ++ ([58] ++ ([34] ++ (s ++ ([34] ++ ([59] ++ rest))))) := by
    have := drop_of_drop data (cur + 1) [58] _ h1
    simpa using this
  have e3 : ruE data (cur + 1 + 1) [58] =
      .ok (natDigits s.length, cur + 1 + 1 + (natDigits s.length).length) :=
    ruE_of_drop data (cur + 1 + 1) 58 (natDigits s.length) _
      (natDigits_ne_sep s.length 58 (by omega)) (by simpa using h2)
  have h3 : data.drop (cur + 1 + 1 + (natDigits s.length).length) =
      [58] ++ ([34] ++ (s ++ ([34] ++ ([59] ++ rest)))) := by
    have := drop_of_drop data (cur + 1 + 1) (natDigits s.length) _ (by simpa using h2)
    simpa using this
  have e4 : read_must data (cur + 1 + 1 + (natDigits s.length).length) [58] =
      .ok (cur + 1 + 1 + (natDigits s.length).length + 1) :=
    read_must_of_drop data _ [58] _ (by simp) h3
  have h4 : data.drop (cur + 1 + 1 + (natDigits s.length).length + 1) =
      [34] ++ (s ++ ([34] ++ ([59] ++ rest))) := by
    have := drop_of_drop data (cur + 1 + 1 + (natDigits s.length).length) [58] _ h3
    simpa using this
  have e5 : read_must data (cur + 1 + 1 + (natDigits s.length).length + 1) [34] =
      .ok (cur + 1 + 1 + (natDigits s.length).length + 1 + 1) :=
    read_must_of_drop data _ [34] _ (by simp) h4
  have h5 : data.drop (cur + 1 + 1 + (natDigits s.length).length + 1 + 1) =
      s ++ ([34] ++ ([59] ++ rest)) := by
    have := drop_of_drop data (cur + 1 + 1 + (natDigits s.length).length + 1) [34] _ h4
    simpa using this
  have e6 : read_bytes data (cur + 1 + 1 + (natDigits s.length).length + 1 + 1) (s.length : Int) =
      (s, cur + 1 + 1 + (natDigits s.length).length + 1 + 1 + s.length) :=
    read_bytes_of_drop data _ s _ h5
  have h6 : data.drop (cur + 1 + 1 + (natDigits s.length).length + 1 + 1 + s.length) =
      [34] ++ ([59] ++ rest) := by
    have := drop_of_drop data (cur + 1 + 1 + (natDigits s.length).length + 1 + 1) s _ h5
    simpa using this
  have e7 : read_must data (cur + 1 + 1 + (natDigits s.length).length + 1 + 1 + s.length) [34] =
      .ok (cur + 1 + 1 + (natDigits s.length).length + 1 + 1 + s.length + 1) :=
    read_must_of_drop data _ [34] _ (by simp) h6
  have h7 : data.drop (cur + 1 + 1 + (natDigits s.length).length + 1 + 1 + s.length + 1) =
      [59] ++ rest := by
    have := drop_of_drop data (cur + 1 + 1 + (natDigits s.length).length + 1 + 1 + s.length) [34] _ h6
    simpa using this
  have e8 : read_must data (cur + 1 + 1 + (natDigits s.length).length + 1 + 1 + s.length + 1) [59] =
      .ok (cur + 1 + 1 + (natDigits s.length).length + 1 + 1 + s.length + 1 + 1) :=
    read_must_of_drop data _ [59] _ (by simp) h7
  unfold string_from_bytes
  rw [e1]
  simp only [bindE_ok]
  rw [e2]
  simp only [bindE_ok]
  rw [e3]
  simp only [bindE_ok]
  rw [pyIntE_natDigits]
  simp only [bindE_ok]
  rw [e4]
  simp only [bindE_ok]
  rw [e5]
  simp only [bindE_ok]
  rw [e6]
  rw [e7]
  simp only [bindE_ok]
  rw [e8]
  simp only [bindE_ok]
  congr 2
  omega

theorem from_bytes_tag_s (f : Nat) (data : List Nat) (cur : Nat)
    (hc : chunk data cur 1 = [115]) :
    from_bytes (f + 1) data cur = string_from_bytes data cur := by
  simp [from_bytes, hc]

theorem from_bytes_tag_i (f : Nat) (data : List Nat) (cur : Nat)
    (hc : chunk data cur 1 = [105]) :
    from_bytes (f + 1) data cur = int_from_bytes data cur := by
  simp [from_bytes, hc]

theorem from_bytes_tag_b (f : Nat) (data : List Nat) (cur : Nat)
    (hc : chunk data cur 1 = [98]) :
    from_bytes (f + 1) data cur = bool_from_bytes data cur := by
  simp [from_bytes, hc]

theorem from_bytes_tag_n (f : Nat) (data : List Nat) (cur : Nat)
    (hc : chunk data cur 1 = [78]) :
    from_bytes (f + 1) data cur = null_from_bytes data cur := by
  simp [from_bytes, hc]

theorem from_bytes_tag_d (f : Nat) (data : List Nat) (cur : Nat)
    (hc : chunk data cur 1 = [100]) :
    from_bytes (f + 1) data cur = decimal_from_bytes data cur := by
  simp [from_bytes, hc]

theorem to_bytes_length_pos (v : Value) (b : List Nat) (hs : to_bytes v = some b) :
    0 < b.length := by
  cases v with
  | null => simp [to_bytes] at hs
  | bool b2 =>
    rw [to_bytes] at hs
    have hb := Option.some.inj hs
    subst hb
    simp
  | int n =>
    rw [to_bytes] at hs
    have hb := Option.some.inj hs
    subst hb
    simp
  | float m e =>
    rw [to_bytes] at hs
    have hb := Option.some.inj hs
    subst hb
    simp
  | bytes s =>
    rw [to_bytes] at hs
    have hb := Option.some.inj hs
    subst hb
    simp
  | arr items =>
    rw [to_bytes] at hs
    rcases Option.map_eq_some'.mp hs with ⟨bod, _, hb⟩
    subst hb
    simp
  | obj name props =>
    rw [to_bytes] at hs
    rcases Option.map_eq_some'.mp hs with ⟨bod, _, hb⟩
    subst hb
    simp

theorem decodeN_serPairs_aux (f : Nat)
    (IH : ∀ (v : Value) (b data : List Nat) (cur : Nat) (rest : List Nat),
      to_bytes v = some b → data.drop cur = b ++ rest → b.length ≤ f →
      from_bytes f data cur = .ok (v, cur + b.length)) :
    ∀ (n : Nat) (ps : Pairs), pairsLen ps ≤ n →
      ∀ (body data : List Nat) (cur : Nat) (rest : List Nat),
      serPairs ps = some body → data.drop cur = body ++ rest → body.length ≤ f →
      decodeN (fun c => from_bytes f data c) (pairsLen ps) cur = .ok (ps, cur + body.length) := by
  intro n
  induction n with
  | zero =>
    intro ps hn body data cur rest hs hd hl
    cases ps with
    | nil =>
      have hb : [] = body := by simpa [serPairs] using hs
      subst hb
      simp [pairsLen, decodeN]
    | cons k v tl => simp [pairsLen] at hn
  | succ n ihn =>
    intro ps hn body data cur rest hs hd hl
    cases ps with
    | nil =>
      have hb : [] = body := by simpa [serPairs] using hs
      subst hb
      simp [pairsLen, decodeN]
    | cons k v tl =>
      rw [serPairs] at hs
      rcases hkb : to_bytes k with _ | kb
      · rw [hkb] at hs; simp at hs
      rcases hvb : to_bytes v with _ | vb
      · rw [hkb, hvb] at hs; simp at hs
      rcases htb : serPairs tl with _ | tb
      · rw [hkb, hvb, htb] at hs; simp at hs
      rw [hkb, hvb, htb] at hs
      have hb : kb ++ vb ++ tb = body := by simpa using hs
      subst hb
      have hlen := hl
      rw [List.length_append, List.length_append] at hlen
      have hd1 : data.drop cur = kb ++ ((vb ++ tb) ++ rest) := by
        simpa [List.append_assoc] using hd
      have ek := IH k kb data cur ((vb ++ tb) ++ rest) hkb hd1 (by omega)
      have hd2 : data.drop (cur + kb.length) = vb ++ (tb ++ rest) := by
        have := drop_of_drop data cur kb _ hd1
        simpa [List.append_assoc] using this
      have ev := IH v vb data (cur + kb.length) (tb ++ rest) hvb hd2 (by omega)
      have hd3 : data.drop (cur + kb.length + vb.length) = tb ++ rest := by
        have := drop_of_drop data (cur + kb.length) vb _ hd2
        simpa using this
      have htl_le : pairsLen tl ≤ n := by
        simp [pairsLen] at hn
        omega
      have etl := ihn tl htl_le tb data (cur + kb.length + vb.length) rest htb hd3 (by omega)
      simp only [pairsLen, decodeN]
      rw [ek]
      simp only [bindE_ok]
      rw [ev]
      simp only [bindE_ok]
      rw [etl]
      simp only [bindE_ok]
      congr 2
      simp [List.length_append]
      omega

theorem decodeN_serPairs (f : Nat)
    (IH : ∀ (v : Value) (b data : List Nat) (cur : Nat) (rest : List Nat),
      to_bytes v = some b → data.drop cur = b ++ rest → b.length ≤ f →
      from_bytes f data cur = .ok (v, cur + b.length))
    (ps : Pairs) (body data : List Nat) (cur : Nat) (rest : List Nat)
    (hs : serPairs ps = some body) (hd : data.drop cur = body ++ rest)
    (hl : body.length ≤ f) :
    decodeN (fun c => from_bytes f data c) (pairsLen ps) cur = .ok (ps, cur + body.length) :=
  decodeN_serPairs_aux f IH (pairsLen ps) ps (Nat.le_refl _) body data cur rest hs hd hl

theorem from_bytes_to_bytes : ∀ (f : Nat) (v : Value) (b data : List Nat) (cur : Nat) (rest : List Nat),
    to_bytes v = some b → data.drop cur = b ++ rest → b.length ≤ f →
    from_bytes f data cur = .ok (v, cur + b.length) := by
  intro f
  induction f with
  | zero =>
    intro v b data cur rest hs hd hl
    have := to_bytes_length_pos v b hs
    omega
  | succ f ih =>
    intro v b data cur rest hs hd hl
    cases v with
    | null => simp [to_bytes] at hs
    | int n =>
      rw [to_bytes] at hs
      have hb := Option.some.inj hs
      subst hb
      have hc1 : chunk data cur 1 = [105] := by
        have := chunk_of_drop data cur [105] (([58] ++ intDigits n ++ [59]) ++ rest)
          (by simpa [List.append_assoc] using hd)
        simpa using this
      rw [from_bytes_tag_i f data cur hc1]
      rw [int_from_bytes_enc data cur n rest (by simpa [List.append_assoc] using hd)]
      have hblen : ([105, 58] ++ intDigits n ++ [59]).length = (intDigits n).length + 3 := by
        simp only [List.length_append, List.length_cons, List.length_nil]
        omega
      rw [hblen]
    | bool b2 =>
      rw [to_bytes] at hs
      have hb := Option.some.inj hs
      subst hb
      have hc1 : chunk data cur 1 = [98] := by
        have := chunk_of_drop data cur [98] ([58, if b2 then 49 else 48, 59] ++ rest)
          (by simpa [List.append_assoc] using hd)
        simpa using this
      rw [from_bytes_tag_b f data cur hc1]
      rw [bool_from_bytes_enc data cur b2 rest (by simpa [List.append_assoc] using hd)]
      simp
    | float m e =>
      rw [to_bytes] at hs
      have hb := Option.some.inj hs
      subst hb
      have hc1 : chunk data cur 1 = [100] := by
        have := chunk_of_drop data cur [100] (([58] ++ renderFloat m e ++ [59]) ++ rest)
          (by simpa [List.append_assoc] using hd)
        simpa using this
      rw [from_bytes_tag_d f data cur hc1]
      rw [decimal_from_bytes_enc data cur m e rest (by simpa [List.append_assoc] using hd)]
      have hblen : ([100, 58] ++ renderFloat m e ++ [59]).length = (renderFloat m e).length + 3 := by
        simp only [List.length_append, List.length_cons, List.length_nil]
        omega
      rw [hblen]
    | bytes s =>
      rw [to_bytes] at hs
      have hb := Option.some.inj hs
      subst hb
      have hc1 : chunk data cur 1 = [115] := by
        have := chunk_of_drop data cur [115]
          (([58] ++ natDigits s.length ++ [58, 34] ++ s ++ [34, 59]) ++ rest)
          (by simpa [List.append_assoc] using hd)
        simpa using this
      rw [from_bytes_tag_s f data cur hc1]
      rw [string_from_bytes_enc data cur s rest (by simpa [List.append_assoc] using hd)]
      have hblen : ([115, 58] ++ natDigits s.length ++ [58, 34] ++ s ++ [34, 59]).length =
          (natDigits s.length).length + s.length + 6 := by
        simp only [List.length_append, List.length_cons, List.length_nil]
        omega
      rw [hblen]
    | arr items =>
      rw [to_bytes] at hs
      rcases Option.map_eq_some'.mp hs with ⟨bod, hbod, hb⟩
      subst hb
      have hlb := hl
      simp only [List.length_append, List.length_cons, List.length_nil] at hlb
      have hc1 : chunk data cur 1 = [97] := by
        have := chunk_of_drop data cur [97]
          (([58] ++ natDigits (pairsLen items) ++ [58, 123] ++ bod ++ [125]) ++ rest)
          (by simpa [List.append_assoc] using hd)
        simpa using this
      have h0 : data.drop cur = [97] ++ ([58] ++ (natDigits (pairsLen items) ++
          ([58] ++ ([123] ++ (bod ++ ([125] ++ rest)))))) := by
        simpa [List.append_assoc] using hd
      have e1 : read_must data cur [97] = .ok (cur + 1) :=
        read_must_of_drop data cur [97] _ (by simp) h0
      have h1 : data.drop (cur + 1) = [58] ++ (natDigits (pairsLen items) ++
          ([58] ++ ([123] ++ (bod ++ ([125] ++ rest))))) := by
        have := drop_of_drop data cur [97] _ h0
        simpa using this
      have e2 : read_must data (cur + 1) [58] = .ok (cur + 1 + 1) :=
        read_must_of_drop data (cur + 1) [58] _ (by simp) h1
      have h2 : data.drop (cur + 1 + 1) = natDigits (pairsLen items) ++
          ([58] ++ ([123] ++ (bod ++ ([125] ++ rest)))) := by
        have := drop_of_drop data (cur + 1) [58] _ h1
        simpa using this
      have e3 : ruE data (cur + 1 + 1) [58] =
          .ok (natDigits (pairsLen items), cur + 1 + 1 + (natDigits (pairsLen items)).length) :=
        ruE_of_drop data (cur + 1 + 1) 58 (natDigits (pairsLen items)) _
          (natDigits_ne_sep (pairsLen items) 58 (by omega)) (by simpa using h2)
      have h3 : data.drop (cur + 1 + 1 + (natDigits (pairsLen items)).length) =
          [58] ++ ([123] ++ (bod ++ ([125] ++ rest))) := by
        have := drop_of_drop data (cur + 1 + 1) (natDigits (pairsLen items)) _ (by simpa using h2)
        simpa using this
      have e4 : read_must data (cur + 1 + 1 + (natDigits (pairsLen items)).length) [58] =
          .ok (cur + 1 + 1 + (natDigits (pairsLen items)).length + 1) :=
        read_must_of_drop data _ [58] _ (by simp) h3
      have h4 : data.drop (cur + 1 + 1 + (natDigits (pairsLen items)).length + 1) =
          [123] ++ (bod ++ ([125] ++ rest)) := by
        have := drop_of_drop data (cur + 1 + 1 + (natDigits (pairsLen items)).length) [58] _ h3
        simpa using this
      have e5 : read_must data (cur + 1 + 1 + (natDigits (pairsLen items)).length + 1) [123] =
          .ok (cur + 1 + 1 + (natDigits (pairsLen items)).length + 1 + 1) :=
        read_must_of_drop data _ [123] _ (by simp) h4
      have h5 : data.drop (cur + 1 + 1 + (natDigits (pairsLen items)).length + 1 + 1) =
          bod ++ ([125] ++ rest) := by
        have := drop_of_drop data (cur + 1 + 1 + (natDigits (pairsLen items)).length + 1) [123] _ h4
        simpa using this
      have e6 := decodeN_serPairs f ih items bod data
        (cur + 1 + 1 + (natDigits (pairsLen items)).length + 1 + 1) ([125] ++ rest)
        hbod h5 (by omega)
      have h6 : data.drop (cur + 1 + 1 + (natDigits (pairsLen items)).length + 1 + 1 + bod.length) =
          [125] ++ rest := by
        have := drop_of_drop data (cur + 1 + 1 + (natDigits (pairsLen items)).length + 1 + 1) bod _ h5
        simpa using this
      have e7 : read_must data
          (cur + 1 + 1 + (natDigits (pairsLen items)).length + 1 + 1 + bod.length) [125] =
          .ok (cur + 1 + 1 + (natDigits (pairsLen items)).length + 1 + 1 + bod.length + 1) :=
        read_must_of_drop data _ [125] _ (by simp) h6
      simp only [from_bytes, hc1]
      rw [e1]
      simp only [bindE_ok]
      rw [e2]
      simp only [bindE_ok]
      rw [e3]
      simp only [bindE_ok]
      rw [pyIntE_natDigits]
      simp only [bindE_ok]
      rw [e4]
      simp only [bindE_ok]
      rw [e5]
      simp only [bindE_ok]
      rw [Int.toNat_natCast]
      rw [e6]
      simp only [bindE_ok]
      rw [e7]
      simp only [bindE_ok]
      have hblen : ([97, 58] ++ natDigits (pairsLen items) ++ [58, 123] ++ bod ++ [125]).length =
          (natDigits (pairsLen items)).length + bod.length + 5 := by
        simp only [List.length_append, List.length_cons, List.length_nil]
        omega
      rw [hblen]
      have hpos : cur + 1 + 1 + (natDigits (pairsLen items)).length + 1 + 1 + bod.length + 1 =
          cur + ((natDigits (pairsLen items)).length + bod.length + 5) := by omega
      rw [hpos]
      simp
    | obj name props =>
      rw [to_bytes] at hs
      rcases Option.map_eq_some'.mp hs with ⟨bod, hbod, hb⟩
      subst hb
      have hlb := hl
      simp only [List.length_append, List.length_cons, List.length_nil] at hlb
      have hc1 : chunk data cur 1 = [79] := by
        have := chunk_of_drop data cur [79]
          (([58] ++ natDigits name.length ++ [58, 34] ++ name ++ [34, 58] ++
            natDigits (pairsLen props) ++ [58, 123] ++ bod ++ [125]) ++ rest)
          (by simpa [List.append_assoc] using hd)
        simpa using this
      have h0 : data.drop cur = [79] ++ ([58] ++ (natDigits name.length ++ ([58] ++ ([34] ++
          (name ++ ([34] ++ ([58] ++ (natDigits (pairsLen props) ++ ([58] ++ ([123] ++
          (bod ++ ([125] ++ rest)))))))))))) := by
        simpa [List.append_assoc] using hd
      have e1 : read_must data cur [79] = .ok (cur + 1) :=
        read_must_of_drop data cur [79] _ (by simp) h0
      have h1 := drop_of_drop data cur [79] _ h0
      simp only [List.length_cons, List.length_nil] at h1
      have e2 : read_must data (cur + 1) [58] = .ok (cur + 1 + 1) := by
        have := read_must_of_drop data (cur + 1) [58] _ (by simp) (by simpa using h1)
        simpa using this
      have h2 := drop_of_drop data (cur + 1) [58] _ (by simpa using h1)
      simp only [List.length_cons, List.length_nil] at h2
      have e3 : ruE data (cur + 1 + 1) [58] =
          .ok (natDigits name.length, cur + 1 + 1 + (natDigits name.length).length) :=
        ruE_of_drop data (cur + 1 + 1) 58 (natDigits name.length) _
          (natDigits_ne_sep name.length 58 (by omega)) (by simpa using h2)
      have h3 := drop_of_drop data (cur + 1 + 1) (natDigits name.length) _ (by simpa using h2)
      have e4 : read_must data (cur + 1 + 1 + (natDigits name.length).length) [58] =
          .ok (cur + 1 + 1 + (natDigits name.length).length + 1) :=
        read_must_of_drop data _ [58] _ (by simp) (by simpa using h3)
      have h4 := drop_of_drop data (cur + 1 + 1 + (natDigits name.length).length) [58] _
        (by simpa using h3)
      simp only [List.length_cons, List.length_nil] at h4
      have e5 : read_must data (cur + 1 + 1 + (natDigits name.length).length + 1) [34] =
          .ok (cur + 1 + 1 + (natDigits name.length).length + 1 + 1) := by
        have := read_must_of_drop data _ [34] _ (by simp) (by simpa using h4)
        simpa using this
      have h5 := drop_of_drop data (cur + 1 + 1 + (natDigits name.length).length + 1) [34] _
        (by simpa using h4)
      simp only [List.length_cons, List.length_nil] at h5
      have e6 : read_bytes data (cur + 1 + 1 + (natDigits name.length).length + 1 + 1)
          (name.length : Int) =
          (name, cur + 1 + 1 + (natDigits name.length).length + 1 + 1 + name.length) :=
        read_bytes_of_drop data _ name _ (by simpa using h5)
      have h6 := drop_of_drop data (cur + 1 + 1 + (natDigits name.length).length + 1 + 1) name _
        (by simpa using h5)
      have e7 : read_must data
          (cur + 1 + 1 + (natDigits name.length).length + 1 + 1 + name.length) [34] =
          .ok (cur + 1 + 1 + (natDigits name.length).length + 1 + 1 + name.length + 1) := by
        have := read_must_of_drop data _ [34] _ (by simp) (by simpa using h6)
        simpa using this
      have h7 := drop_of_drop data
        (cur + 1 + 1 + (natDigits name.length).length + 1 + 1 + name.length) [34] _
        (by simpa using h6)
      simp only [List.length_cons, List.length_nil] at h7
      have e8 : read_must data
          (cur + 1 + 1 + (natDigits name.length).length + 1 + 1 + name.length + 1) [58] =
          .ok (cur + 1 + 1 + (natDigits name.length).length + 1 + 1 + name.length + 1 + 1) := by
        have := read_must_of_drop data _ [58] _ (by simp) (by simpa using h7)
        simpa using this
      have h8 := drop_of_drop data
        (cur + 1 + 1 + (natDigits name.length).length + 1 + 1 + name.length + 1) [58] _
        (by simpa using h7)
      simp only [List.length_cons, List.length_nil] at h8
      have e9 : ruE data
          (cur + 1 + 1 + (natDigits name.length).length + 1 + 1 + name.length + 1 + 1) [58] =
          .ok (natDigits (pairsLen props),
            cur + 1 + 1 + (natDigits name.length).length + 1 + 1 + name.length + 1 + 1 +
              (natDigits (pairsLen props)).length) :=
        ruE_of_drop data _ 58 (natDigits (pairsLen props)) _
          (natDigits_ne_sep (pairsLen props) 58 (by omega)) (by simpa using h8)
      have h9 := drop_of_drop data
        (cur + 1 + 1 + (natDigits name.length).length + 1 + 1 + name.length + 1 + 1)
        (natDigits (pairsLen props)) _ (by simpa using h8)
      have e10 : read_must data
          (cur + 1 + 1 + (natDigits name.length).length + 1 + 1 + name.length + 1 + 1 +
            (natDigits (pairsLen props)).length) [58] =
          .ok (cur + 1 + 1 + (natDigits name.length).length + 1 + 1 + name.length + 1 + 1 +
            (natDigits (pairsLen props)).length + 1) := by
        have := read_must_of_drop data _ [58] _ (by simp) (by simpa using h9)
        simpa using this
      have h10 := drop_of_drop data
        (cur + 1 + 1 + (natDigits name.length).length + 1 + 1 + name.length + 1 + 1 +
          (natDigits (pairsLen props)).length) [58] _ (by simpa using h9)
      simp only [List.length_cons, List.length_nil] at h10
      have e11 : read_must data
          (cur + 1 + 1 + (natDigits name.length).length + 1 + 1 + name.length + 1 + 1 +
            (natDigits (pairsLen props)).length + 1) [123] =
          .ok (cur + 1 + 1 + (natDigits name.length).length + 1 + 1 + name.length + 1 + 1 +
            (natDigits (pairsLen props)).length + 1 + 1) := by
        have := read_must_of_drop data _ [123] _ (by simp) (by simpa using h10)
        simpa using this
      have h11 := drop_of_drop data
        (cur + 1 + 1 + (natDigits name.length).length + 1 + 1 + name.length + 1 + 1 +
          (natDigits (pairsLen props)).length + 1) [123] _ (by simpa using h10)
      simp only [List.length_cons, List.length_nil] at h11
      have e12 := decodeN_serPairs f ih props bod data
        (cur + 1 + 1 + (natDigits name.length).length + 1 + 1 + name.length + 1 + 1 +
          (natDigits (pairsLen props)).length + 1 + 1) ([125] ++ rest)
        hbod (by simpa using h11) (by omega)
      have h12 := drop_of_drop data
        (cur + 1 + 1 + (natDigits name.length).length + 1 + 1 + name.length + 1 + 1 +
          (natDigits (pairsLen props)).length + 1 + 1) bod _ (by simpa using h11)
      have e13 : read_must data
          (cur + 1 + 1 + (natDigits name.length).length + 1 + 1 + name.length + 1 + 1 +
            (natDigits (pairsLen props)).length + 1 + 1 + bod.length) [125] =
          .ok (cur + 1 + 1 + (natDigits name.length).length + 1 + 1 + name.length + 1 + 1 +
            (natDigits (pairsLen props)).length + 1 + 1 + bod.length + 1) := by
        have := read_must_of_drop data _ [125] _ (by simp) (by simpa using h12)
        simpa using this
      simp only [from_bytes, hc1]
      rw [e1]
      simp only [bindE_ok]
      rw [e2]
      simp only [bindE_ok]
      rw [e3]
      simp only [bindE_ok]
      rw [pyIntE_natDigits]
      simp only [bindE_ok]
      rw [e4]
      simp only [bindE_ok]
      rw [e5]
      simp only [bindE_ok]
      rw [e6]
      simp only []
      rw [e7]
      simp only [bindE_ok]
      rw [e8]
      simp only [bindE_ok]
      rw [e9]
      simp only [bindE_ok]
      rw [pyIntE_natDigits]
      simp only [bindE_ok]
      rw [e10]
      simp only [bindE_ok]
      rw [e11]
      simp only [bindE_ok]
      rw [Int.toNat_natCast]
      rw [e12]
      simp only [bindE_ok]
      rw [e13]
      simp only [bindE_ok]
      have hblen : ([79, 58] ++ natDigits name.length ++ [58, 34] ++ name ++ [34, 58] ++
          natDigits (pairsLen props) ++ [58, 123] ++ bod ++ [125]).length =
          (natDigits name.length).length + name.length +
            (natDigits (pairsLen props)).length + bod.length + 9 := by
        simp only [List.length_append, List.length_cons, List.length_nil]
        omega
      rw [hblen]
      have hpos : cur + 1 + 1 + (natDigits name.length).length + 1 + 1 + name.length + 1 + 1 +
          (natDigits (pairsLen props)).length + 1 + 1 + bod.length + 1 =
          cur + ((natDigits name.length).length + name.length +
            (natDigits (pairsLen props)).length + bod.length + 9) := by omega
      rw [hpos]
      simp

/-- Structural induction for `Pairs` alone (the mutual recursor needs both
motives; this one runs on the pair-list length). -/
theorem pairs_induction (P : Pairs → Prop) (h0 : P .nil)
    (h1 : ∀ k v tl, P tl → P (.cons k v tl)) (ps : Pairs) : P ps := by
  have key : ∀ (n : Nat) (q : Pairs), pairsLen q ≤ n → P q := by
    intro n
    induction n with
    | zero =>
      intro q hq
      cases q with
      | nil => exact h0
      | cons k v tl => simp [pairsLen] at hq
    | succ n ihn =>
      intro q hq
      cases q with
      | nil => exact h0
      | cons k v tl =>
        refine h1 k v tl (ihn tl ?_)
        simp [pairsLen] at hq
        omega
  exact key (pairsLen ps) ps (Nat.le_refl _)

/-- When no key matches, the `_get` scan falls off the list and yields null. -/
theorem qgetScan_no_match (s : Value) (rest : List Value) (items : Pairs)
    (h : pairsAnyKeyG items s = false) : qgetScan s rest items = .null := by
  induction items using pairs_induction with
  | h0 => simp [qgetScan]
  | h1 k v tl ih =>
    simp only [pairsAnyKeyG, Bool.or_eq_false_iff] at h
    simp [qgetScan, h.1, ih h.2]

/-- When no key matches, replacing every match is the identity rebuild. -/
theorem replaceAllSpec_no_match (s : Value) (rest : List Value) (v : Value)
    (items : Pairs) (h : pairsAnyKeyS s items = false) :
    replaceAllSpec s rest v items = .ok items := by
  induction items using pairs_induction with
  | h0 => simp [replaceAllSpec]
  | h1 k w tl ih =>
    simp only [pairsAnyKeyS, Bool.or_eq_false_iff] at h
    simp [replaceAllSpec, h.1, ih h.2, Bind.bind, Except.bind]

/-- The `_set` rebuild loop replaces the value of every matching pair, and
its boolean is exactly "some key matched". -/
theorem qsetScan_spec (s : Value) (rest : List Value) (v : Value) (items : Pairs) :
    qsetScan s rest v items =
      (replaceAllSpec s rest v items).map (fun l => (l, pairsAnyKeyS s items)) := by
  induction items using pairs_induction with
  | h0 => simp [qsetScan, replaceAllSpec, pairsAnyKeyS, Except.map]
  | h1 k w tl ih =>
    by_cases hk : pyEq s k
    · simp only [qsetScan, replaceAllSpec, pairsAnyKeyS, hk, if_pos, ih,
        Bool.true_or]
      cases hw : qset rest v w with
      | error e => simp [hw, Bind.bind, Except.bind, Except.map]
      | ok w2 =>
        cases hre : replaceAllSpec s rest v tl with
        | error e => simp [hw, hre, Bind.bind, Except.bind, Except.map]
        | ok tl2 => simp [hw, hre, Bind.bind, Except.bind, Except.map]
    · simp only [qsetScan, replaceAllSpec, pairsAnyKeyS, hk, if_neg, ih,
        Bool.false_or, not_false_eq_true]
      cases hre : replaceAllSpec s rest v tl with
      | error e => simp [hre, Bind.bind, Except.bind, Except.map]
      | ok tl2 => simp [hre, Bind.bind, Except.bind, Except.map]

/-- `_set` on an array agrees with the replace-every-match specification. -/
theorem qset_arr_eq_setSpec (s : Value) (rest : List Value) (v : Value)
    (items : Pairs) : qset (s :: rest) v (.arr items) = setSpecArr s rest v items := by
  simp only [qset, qsetScan_spec]
  by_cases hany : pairsAnyKeyS s items
  · rw [setSpecArr, if_pos hany]
    cases hre : replaceAllSpec s rest v items with
    | error e => simp [hre, hany, Bind.bind, Except.bind, Except.map]
    | ok l => simp [hre, hany, Bind.bind, Except.bind, Except.map]
  · rw [setSpecArr, if_neg hany]
    have hany' : pairsAnyKeyS s items = false := by
      simpa using hany
    rw [replaceAllSpec_no_match s rest v items hany']
    cases hnv : qset rest v (.arr .nil) with
    | error e => simp [hnv, hany', Bind.bind, Except.bind, Except.map]
    | ok nv => simp [hnv, hany', Bind.bind, Except.bind, Except.map]

/-- The depth-1 delete keeps, in order, exactly the pairs whose keys do not
match the selector. -/
theorem delAll_filter (s : Value) (items : Pairs) :
    pairsToList (delAll s items) =
      (pairsToList items).filter (fun p => !(pyEq p.1 s)) := by
  induction items using pairs_induction with
  | h0 => simp [delAll, pairsToList]
  | h1 k w tl ih =>
    by_cases hk : pyEq k s <;>
      simp [delAll, pairsToList, hk, List.filter_cons, ih]

/-- A single-segment delete on an array is exactly the depth-1 sweep. -/
theorem qdelete_single (s : Value) (items : Pairs) :
    qdelete [s] (.arr items) = .ok (.arr (delAll s items)) := by
  simp [qdelete]

/-- A nonempty pattern is never a prefix of the empty list. -/
theorem isPrefixOf_nil_false (stop : List Nat) (hne : stop ≠ []) :
    stop.isPrefixOf ([] : List Nat) = false := by
  cases stop with
  | nil => exact absurd rfl hne
  | cons a t => rfl

/-- When `findMarker` reports offset `i`, the pattern occurs there and at no
earlier offset. -/
theorem findMarker_some_spec (stop : List Nat) (hne : stop ≠ []) :
    ∀ (s : List Nat) (i : Nat), findMarker stop s = some i →
      stop.isPrefixOf (s.drop i) = true ∧
      ∀ j, j < i → stop.isPrefixOf (s.drop j) = false := by
  intro s
  induction s with
  | nil =>
    intro i hi
    rw [findMarker, isPrefixOf_nil_false stop hne] at hi
    simp at hi
  | cons a t ih =>
    intro i hi
    rw [findMarker] at hi
    by_cases hp : stop.isPrefixOf (a :: t)
    · rw [if_pos hp] at hi
      cases hi
      exact ⟨hp, fun j hj => absurd hj (Nat.not_lt_zero j)⟩
    · rw [if_neg hp, Option.map_eq_some'] at hi
      obtain ⟨i0, h0, hi0⟩ := hi
      obtain ⟨hocc, hmin⟩ := ih i0 h0
      subst hi0
      refine ⟨hocc, ?_⟩
      intro j hj
      cases j with
      | zero => exact Bool.eq_false_iff.mpr hp
      | succ j0 =>
        rw [List.drop_succ_cons]
        exact hmin j0 (by omega)

/-- When `findMarker` fails, the pattern occurs at no offset at all. -/
theorem findMarker_none_spec (stop : List Nat) (hne : stop ≠ []) :
    ∀ (s : List Nat), findMarker stop s = none →
      ∀ j, stop.isPrefixOf (s.drop j) = false := by
  intro s
  induction s with
  | nil =>
    intro _ j
    rw [List.drop_nil]
    exact isPrefixOf_nil_false stop hne
  | cons a t ih =>
    intro hn j
    rw [findMarker] at hn
    by_cases hp : stop.isPrefixOf (a :: t)
    · rw [if_pos hp] at hn; cases hn
    · rw [if_neg hp, Option.map_eq_none'] at hn
      cases j with
      | zero => exact Bool.eq_false_iff.mpr hp
      | succ j0 =>
        rw [List.drop_succ_cons]
        exact ih hn j0

/-- C1 (corrected).  The spec's round trip `encode(decode(b)) = b` fails for
some syntactically accepted inputs (a zero-padded integer body re-encodes
canonically); it does hold on the encoder's image: whenever `serialize`
produces `b`, decoding `b` and re-encoding reproduces `b` byte-exactly. -/
theorem claim1_roundtrip_on_encoder_image (v : Value) (b : List Nat)
    (h : php_serialize v = some b) : reencode b = some b := by
  have hu : php_unserialize b = .ok v := by
    rw [php_unserialize,
      from_bytes_to_bytes (b.length + 1) v b b 0 [] h
        (by simp) (by omega)]
    rfl
  rw [reencode, hu]
  exact h

/-- Witness: the encoder output for `Int 125` (`i:125;`) round-trips. -/
theorem claim1_roundtrip_witness :
    reencode [105, 58, 49, 50, 53, 59] = some [105, 58, 49, 50, 53, 59] :=
  claim1_roundtrip_on_encoder_image (.int 125) [105, 58, 49, 50, 53, 59] rfl

/-- C1 counterexample: `i:01;` is accepted by the decoder (Python `int`
tolerates leading zeros) but re-encodes as the canonical `i:1;`, so the
round trip fails on this syntactically valid input. -/
theorem claim1_counterexample :
    php_unserialize [105, 58, 48, 49, 59] = .ok (.int 1) ∧
    reencode [105, 58, 48, 49, 59] = some [105, 58, 49, 59] ∧
    (([105, 58, 49, 59] : List Nat) == [105, 58, 48, 49, 59]) = false :=
  ⟨rfl, rfl, rfl⟩

/-- C2 (code bug): `to_bytes` has no branch for Python `None`, so `Null` —
a member of the closed value set, and producible by the decoder from `N;` —
is rejected with `SerializeError` (modelled `none`) instead of being
serialized; consequently `serialize(unserialize(b"N;"))` fails. -/
theorem claim2_serialize_rejects_null :
    php_unserialize [78, 59] = .ok Value.null ∧
    php_serialize Value.null = none ∧
    php_serialize (.arr (.cons (.int 0) Value.null .nil)) = none ∧
    reencode [78, 59] = none :=
  ⟨rfl, rfl, rfl, rfl⟩

/-- C3 (corrected): `_set` on an array does not stop at the first matching
pair — it replaces the value of EVERY pair whose key matches the selector
head (appending the freshly created pair only when nothing matched), as the
`setSpecArr` rebuild states; the spec's missing-path example still holds. -/
theorem claim3_set_replaces_every_match :
    (∀ (s : Value) (rest : List Value) (v : Value) (items : Pairs),
      qset (s :: rest) v (.arr items) = setSpecArr s rest v items) ∧
    qset [Value.int 2, Value.int 1] (.int 3)
        (.arr (.cons (.int 0) (.int 0) (.cons (.int 1) (.int 1) .nil))) =
      .ok (.arr (.cons (.int 0) (.int 0) (.cons (.int 1) (.int 1)
        (.cons (.int 2) (.arr (.cons (.int 1) (.int 3) .nil)) .nil)))) := by
  refine ⟨qset_arr_eq_setSpec, ?_⟩
  simp [qset, qsetScan, pyEq, asDec, pairsAppend, Bind.bind, Except.bind]

/-- C3 counterexample: with a duplicated key, `_set` rewrites both pairs,
while the spec's first-match rebuild (`setFirstArr`) leaves the second one
untouched — the two disagree. -/
theorem claim3_counterexample :
    qset [Value.int 0] (.int 5)
        (.arr (.cons (.int 0) (.int 1) (.cons (.int 0) (.int 2) .nil))) =
      .ok (.arr (.cons (.int 0) (.int 5) (.cons (.int 0) (.int 5) .nil))) ∧
    setFirstArr (.int 0) [] (.int 5)
        (.cons (.int 0) (.int 1) (.cons (.int 0) (.int 2) .nil)) =
      .ok (.arr (.cons (.int 0) (.int 5) (.cons (.int 0) (.int 2) .nil))) ∧
    ((Value.arr (.cons (.int 0) (.int 5) (.cons (.int 0) (.int 5) .nil)) ==
      Value.arr (.cons (.int 0) (.int 5) (.cons (.int 0) (.int 2) .nil))) = false) := by
  refine ⟨?_, ?_, by decide⟩
  · simp [qset, qsetScan, pyEq, asDec, Bind.bind, Except.bind]
  · simp [setFirstArr, setFirstScan, qset, pyEq, asDec, Bind.bind, Except.bind]

/-- C4 (corrected): the key comparison of Get/Set/Delete is Python `==`,
not exact-type-and-value match.  Byte-string keys indeed never equal
numeric ones, but the numeric variants compare by value ACROSS types:
`Int n` equals `Bool b` iff `n` is `b`'s 0/1 value, and `Float` equals
`Int` by exact decimal value — so `Int 1` does match `Bool true` and
`Float 1.0`.  The scans consult exactly this predicate. -/
theorem claim4_key_equality_is_python_eq :
    (∀ (n : Int) (bs : List Nat),
      pyEq (.int n) (.bytes bs) = false ∧ pyEq (.bytes bs) (.int n) = false) ∧
    (∀ (n : Int) (b : Bool),
      (pyEq (.int n) (.bool b) = true ↔ n = if b then 1 else 0)) ∧
    (∀ (m : Int) (e : Nat) (n : Int),
      (pyEq (.float m e) (.int n) = true ↔ m = n * 10 ^ e)) ∧
    (∀ (s : Value) (rest : List Value) (k w : Value) (tl : Pairs),
      qget (s :: rest) (.arr (.cons k w tl)) =
        if pyEq k s then qget rest w else qget (s :: rest) (.arr tl)) ∧
    (∀ (s k w : Value) (tl : Pairs),
      delAll s (.cons k w tl) =
        if pyEq k s then delAll s tl else .cons k w (delAll s tl)) ∧
    (∀ (s : Value) (rest : List Value) (v : Value) (items : Pairs),
      qsetScan s rest v items =
        (replaceAllSpec s rest v items).map (fun l => (l, pairsAnyKeyS s items))) := by
  refine ⟨?_, ?_, ?_, ?_, fun _ _ _ _ => rfl, qsetScan_spec⟩
  · intro n bs
    exact ⟨by simp [pyEq, asDec], by simp [pyEq, asDec]⟩
  · intro n b
    cases b <;> simp [pyEq, asDec]
  · intro m e n
    simp [pyEq, asDec]
  · intro s rest k w tl
    by_cases hk : pyEq k s <;> simp [qget, qgetScan, hk]

/-- C4 counterexample: a `Float 1.0` selector segment retrieves the value
stored under the `Int 1` key (cross-type numeric match), contradicting the
spec's exact-type-and-value claim. -/
theorem claim4_counterexample :
    pyEq (.int 1) (.float 10 1) = true ∧
    pyEq (.int 1) (.bool true) = true ∧
    qget [Value.float 10 1] (.arr (.cons (.int 1) (.int 7) .nil)) = .int 7 ∧
    ((Value.int 7 == Value.null) = false) := by
  refine ⟨by decide, by decide, ?_, by decide⟩
  simp [qget, qgetScan, pyEq, asDec]

/-- C5 (confirmed): a single-segment delete on an array removes EVERY pair
whose key matches — the result is the in-order filter of the original pair
list by non-matching key — and the spec's concrete example holds. -/
theorem claim5_delete_all_matches :
    (∀ (k : Value) (items : Pairs),
      qdelete [k] (.arr items) = .ok (.arr (delAll k items))) ∧
    (∀ (k : Value) (items : Pairs),
      pairsToList (delAll k items) =
        (pairsToList items).filter (fun p => !(pyEq p.1 k))) ∧
    qdelete [Value.int 0] (.arr (.cons (.int 0) (.int 1) (.cons (.int 0) (.int 2)
      (.cons (.int 1) (.int 3) .nil)))) = .ok (.arr (.cons (.int 1) (.int 3) .nil)) := by
  refine ⟨fun k items => qdelete_single k items, delAll_filter, ?_⟩
  simp [qdelete, delAll, pyEq, asDec]

/-- C6 (confirmed): the empty selector is an identity for both Get and
Delete, on every tree, and Delete succeeds rather than failing. -/
theorem claim6_empty_selector_identity (T : Value) :
    qget [] T = T ∧ qdelete [] T = .ok T :=
  ⟨by simp [qget], by simp [qdelete]⟩

/-- C7 (confirmed): with a non-empty selector, Get yields `Null` — and, its
type being error-free, never raises — when no key of the array matches the
selector head, and on every shape other than array/object; the spec's
`Get([1], Array([])) = Null` example holds. -/
theorem claim7_get_absent_null :
    (∀ (s : Value) (rest : List Value) (items : Pairs),
      pairsAnyKeyG items s = false → qget (s :: rest) (.arr items) = .null) ∧
    (∀ (s : Value) (rest : List Value) (T : Value),
      isContainer T = false → qget (s :: rest) T = .null) ∧
    qget [Value.int 1] (.arr .nil) = .null := by
  refine ⟨?_, ?_, by simp [qget, qgetScan]⟩
  · intro s rest items h
    rw [show qget (s :: rest) (.arr items) = qgetScan s rest items by simp [qget]]
    exact qgetScan_no_match s rest items h
  · intro s rest T h
    cases T <;> simp_all [qget, isContainer]

/-- Witness for C7: an unmatched `Int 1` key on a one-pair array, and a
non-container scalar, both query to `Null`. -/
theorem claim7_witness :
    qget [Value.int 1] (.arr (.cons (.int 2) (.int 9) .nil)) = .null ∧
    qget [Value.int 1, Value.int 0] (.int 5) = .null :=
  ⟨claim7_get_absent_null.1 (.int 1) [] (.cons (.int 2) (.int 9) .nil) (by decide),
   claim7_get_absent_null.2.1 (.int 1) [.int 0] (.int 5) (by decide)⟩

/-- C8 (corrected): with a non-empty marker, `read_until` indeed returns
exactly the bytes before the marker's first occurrence in the remaining
input and advances just past that span (not past the marker); but when the
marker never occurs it does not fail with a positioned parse error — the
`split` unpacking raises a bare `ValueError` (modelled `none`, lifted to
`.error .valueError`), carrying no position. -/
theorem claim8_read_until_contract (data : List Nat) (cur : Nat)
    (stop : List Nat) (hne : stop ≠ []) :
    (∀ i, findMarker stop (data.drop cur) = some i →
      read_until data cur stop = some ((data.drop cur).take i, cur + i) ∧
      stop.isPrefixOf ((data.drop cur).drop i) = true ∧
      ∀ j, j < i → stop.isPrefixOf ((data.drop cur).drop j) = false) ∧
    (findMarker stop (data.drop cur) = none →
      read_until data cur stop = none ∧
      ruE data cur stop = .error .valueError ∧
      ∀ j, stop.isPrefixOf ((data.drop cur).drop j) = false) := by
  constructor
  · intro i hi
    obtain ⟨hocc, hmin⟩ := findMarker_some_spec stop hne (data.drop cur) i hi
    refine ⟨?_, hocc, hmin⟩
    rw [read_until, if_neg hne, hi]
  · intro hn
    have hru : read_until data cur stop = none := by
      rw [read_until, if_neg hne, hn]
    refine ⟨hru, ?_, findMarker_none_spec stop hne (data.drop cur) hn⟩
    rw [ruE, hru]

/-- Witness for C8: in `a;b` the marker `;` is found at offset 1; the byte
before it is returned and the position advances to the marker. -/
theorem claim8_witness :
    read_until [97, 59, 98] 0 [59] =
      some ((([97, 59, 98] : List Nat).drop 0).take 1, 0 + 1) ∧
    [59].isPrefixOf ((([97, 59, 98] : List Nat).drop 0).drop 1) = true :=
  ⟨((claim8_read_until_contract [97, 59, 98] 0 [59] (by decide)).1 1 rfl).1,
   ((claim8_read_until_contract [97, 59, 98] 0 [59] (by decide)).1 1 rfl).2.1⟩

/-- C8 counterexample: an empty marker trivially occurs at offset 0, yet
`read_until` fails (Python raises `ValueError: empty separator`), and the
failure is the positionless `ValueError`, not a positioned parse error. -/
theorem claim8_counterexample :
    read_until [97] 0 [] = none ∧
    ruE [97] 0 [] = .error .valueError ∧
    List.isPrefixOf ([] : List Nat) ([97] : List Nat) = true :=
  ⟨rfl, rfl, rfl⟩

/-- C9 (code bug): a number token consisting of a lone minus sign defeats
the no-digits guard (the guard inspects the buffer already seeded with the
minus), so `int(b"-")` raises an uncaught `ValueError` carrying no byte
offset — not the positioned `ParseError` the spec promises; a digitless
token WITHOUT a minus does produce the positioned `ParseError`. -/
theorem claim9_lone_minus_value_error :
    parse_number [71, 58, 45] 2 = .error .valueError ∧
    runQuery (.arr .nil) [71, 58, 45] = .error .valueError ∧
    (∀ p : Nat, ((PErr.valueError == PErr.parseError p) = false)) ∧
    parse_number [71, 58, 120] 2 = .error (.parseError 2) :=
  ⟨rfl, rfl, fun _ => rfl, rfl⟩

/-- C10 (confirmed): the query value grammar accepts `{ string , array }`
object literals — `parse_value` dispatches on `{`, a successful parse
yields an `obj` with the class name and properties, an empty class name is
rejected with a `ParseError` at the position after the name — and the
concrete literal `{"A",[1:2]}` parses to the expected object. -/
theorem claim10_object_literal :
    (∀ (f : Nat) (data : List Nat) (cur : Nat), chunk data cur 1 = [123] →
      parse_value (f + 1) data cur =
        (parse_object (fun c0 => parse_value f data c0) data f cur).map
          (fun r => (Value.obj r.1.1 r.1.2, r.2))) ∧
    (∀ (pv : Nat → Except PErr (Value × Nat)) (data : List Nat)
        (g cur c1 : Nat) (name : List Nat) (c2 c3 : Nat) (props : Pairs)
        (c4 c5 : Nat),
      read_must data cur [123] = .ok c1 →
      parse_string data c1 = .ok (name, c2) →
      name ≠ [] →
      read_must data c2 [44] = .ok c3 →
      parse_array pv data g c3 = .ok (props, c4) →
      read_must data c4 [125] = .ok c5 →
      parse_object pv data g cur = .ok ((name, props), c5)) ∧
    (∀ (pv : Nat → Except PErr (Value × Nat)) (data : List Nat)
        (g cur c1 c2 : Nat),
      read_must data cur [123] = .ok c1 →
      parse_string data c1 = .ok ([], c2) →
      parse_object pv data g cur = .error (.parseError c2)) ∧
    parse_value 12 [123, 34, 65, 34, 44, 91, 49, 58, 50, 93, 125] 0 =
      .ok (.obj [65] (.cons (.int 1) (.int 2) .nil), 11) := by
  refine ⟨?_, ?_, ?_, rfl⟩
  · intro f data cur h
    simp [parse_value, h]
  · intro pv data g cur c1 name c2 c3 props c4 c5 h1 h2 hn h3 h4 h5
    rw [parse_object, h1, bindE_ok, h2, bindE_ok]
    simp [hn, h3, h4, h5, Bind.bind, Except.bind]
  · intro pv data g cur c1 c2 h1 h2
    rw [parse_object, h1, bindE_ok, h2, bindE_ok]
    simp

/-- Witness for C10: the literal `{"",[]}` has an empty class name; parsing
it as an object fails with a `ParseError` at position 3 (just past the
name). -/
theorem claim10_witness :
    parse_object (fun c0 => parse_value 5 [123, 34, 34, 44, 91, 93, 125] c0)
      [123, 34, 34, 44, 91, 93, 125] 5 0 = .error (.parseError 3) :=
  claim10_object_literal.2.2.1
    (fun c0 => parse_value 5 [123, 34, 34, 44, 91, 93, 125] c0)
    [123, 34, 34, 44, 91, 93, 125] 5 0 1 3 rfl rfl
